import Mathlib

/-!
Verification development for the AgentTrace backend (Python).

This file gives a shallow embedding, in Lean 4, of the core components of
the repository:

* `backend/security.py` — sanitizer (`sanitize_trace_data`,
  `sanitize_sensitive_string` with its five regular-expression patterns);
* `backend/main.py` — normalizer (`parse_timestamp`, `parse_agent_log`);
* `backend/ai_service.py` — analysis cache and gate (`_generate_cache_key`,
  `_get_cached_analysis`, `_store_cached_analysis`, `_parse_ai_response`,
  `analyze_error`).

JSON-like Python values are modelled by the inductive type `JsonVal`
(JSON numbers are modelled as integers; no claim below depends on
float-specific behavior).  Instants (`datetime`) are modelled as integer
epoch milliseconds; each Python function that reads the ambient clock
takes the current instant `now` as an explicit argument (a single parse or
analyze call uses one instant for all of its internal `datetime.now()`
reads; no claim depends on the sub-call clock drift).  Fallible Python
code is modelled with `Except`/`Option`.
-/

set_option maxHeartbeats 1000000
set_option linter.dupNamespace false

namespace AgentTrace

/-- A JSON-like Python value: `None`, `bool`, `int`, `str`, `list`, `dict`
(a `dict` is a finite list of key/value entries in insertion order; Python
dictionaries have pairwise-distinct keys, which hypotheses state where it
matters).  Numbers are modelled as integers. -/
inductive JsonVal where
  | null : JsonVal
  | bool : Bool → JsonVal
  | int : Int → JsonVal
  | str : String → JsonVal
  | arr : List JsonVal → JsonVal
  | obj : List (String × JsonVal) → JsonVal

namespace JsonVal

/-- Python `d.get(k)` on a dict: the value at the first matching key, if any. -/
def jget (kvs : List (String × JsonVal)) (k : String) : Option JsonVal :=
  match kvs with
  | [] => none
  | (k', v) :: rest => if k' = k then some v else jget rest k

/-- Python `d.get(k, default)`. -/
def jgetD (kvs : List (String × JsonVal)) (k : String) (d : JsonVal) : JsonVal :=
  (jget kvs k).getD d

/-- Python truthiness of a JSON-like value (`bool(v)`). -/
def truthy : JsonVal → Bool
  | .null => false
  | .bool b => b
  | .int n => n ≠ 0
  | .str s => s ≠ ""
  | .arr xs => !xs.isEmpty
  | .obj kvs => !kvs.isEmpty

/-- Is the value a Python `dict`? -/
def isObj : JsonVal → Bool
  | .obj _ => true
  | _ => false

/-- Is the value a Python `list`? -/
def isArr : JsonVal → Bool
  | .arr _ => true
  | _ => false

end JsonVal

/-! ## Sanitizer (security.py)

`sanitize_sensitive_string` applies five `re.sub` calls in sequence.  Each
pattern has the shape

  `(?i)(alt₁|alt₂|…)["\s]*[:=]["\s]*([^"\s,}]+)`

where every alternative is a literal key name, possibly with one optional
`[_-]` in the middle.  The engine below implements exactly this pattern
family with Python `re` semantics: left-to-right scan, leftmost match,
non-overlapping, alternatives tried in order (backtracking into the
alternation when the tail fails), greedy character classes.  The character
classes `["\s]` and `[:=]` and `[^"\s,}]` are pairwise disjoint, so greedy
scanning needs no further backtracking.  `\s` is modelled on the ASCII
range (no claim depends on non-ASCII whitespace). -/

/-- The characters matched by `\s` (ASCII range). -/
def pySpace (c : Char) : Bool :=
  c = ' ' || c = '\t' || c = '\n' || c = '\r' || c = '\x0b' || c = '\x0c'

/-- The class `["\s]` that may surround the separator. -/
def sepChar (c : Char) : Bool := c = '"' || pySpace c

/-- The value class `[^"\s,}]`. -/
def valChar (c : Char) : Bool := !(c = '"' || pySpace c || c = ',' || c = '\x7d')

/-- Case-insensitive literal match: consumes `lit` (given lowercase) from the
front of `cs`, returning the consumed original-case characters and the rest. -/
def matchLitCI : List Char → List Char → Option (List Char × List Char)
  | [], cs => some ([], cs)
  | _ :: _, [] => none
  | l :: ls, c :: cs =>
    if c.toLower = l.toLower then
      (matchLitCI ls cs).map (fun p => (c :: p.1, p.2))
    else none

/-- One alternative of a key group: literal `pre`, an optional `[_-]` when
`mid` is true, then literal `post`. -/
structure KeyAlt where
  pre : List Char
  mid : Bool
  post : List Char

/-- Match the `post` part directly (the optional `[_-]` left unused). -/
def matchPost (post k1 : List Char) (r1 : List Char) : Option (List Char × List Char) :=
  (matchLitCI post r1).map (fun p => (k1 ++ p.1, p.2))

/-- Match one key alternative at the front of `cs`, returning the matched
key text (regex group 1) and the rest.  The greedy `[_-]?` is tried with the
separator first; since `post` never starts with `_`/`-`, skipping the
separator after it matched can never help the tail, so no further
backtracking is observable. -/
def matchKeyAlt (a : KeyAlt) (cs : List Char) : Option (List Char × List Char) :=
  match matchLitCI a.pre cs with
  | none => none
  | some (k1, r1) =>
    if a.mid then
      match r1 with
      | c :: r2 =>
        if c = '_' || c = '-' then
          match matchLitCI a.post r2 with
          | some (k2, r3) => some (k1 ++ c :: k2, r3)
          | none => matchPost a.post k1 r1
        else matchPost a.post k1 r1
      | [] => matchPost a.post k1 r1
    else matchPost a.post k1 r1

/-- Match the common tail `["\s]*[:=]["\s]*([^"\s,}]+)` after the key,
returning the rest of the input after the (greedy, non-empty) value. -/
def matchTail (cs : List Char) : Option (List Char) :=
  match cs.dropWhile sepChar with
  | c :: r2 =>
    if c = ':' || c = '=' then
      let r3 := r2.dropWhile sepChar
      if (r3.takeWhile valChar).isEmpty then none else some (r3.dropWhile valChar)
    else none
  | [] => none

/-- Try the full pattern at the front of `cs`: alternatives in order, each
continued with the tail (Python backtracks into the alternation when the
tail fails).  Returns (group 1, rest after the whole match). -/
def tryMatchAt (alts : List KeyAlt) (cs : List Char) : Option (List Char × List Char) :=
  match alts with
  | [] => none
  | a :: rest =>
    match matchKeyAlt a cs with
    | some (k, r) =>
      match matchTail r with
      | some r' => some (k, r')
      | none => tryMatchAt rest cs
    | none => tryMatchAt rest cs

/-- Left-to-right non-overlapping substitution scan, replacing each match
with `\1: [REDACTED]`.  Every match consumes at least the (non-empty) key,
so `fuel := length of the input` suffices; the fuel-exhausted branch is
unreachable at the call site below. -/
def subScan (alts : List KeyAlt) : Nat → List Char → List Char
  | 0, cs => cs
  | _ + 1, [] => []
  | fuel + 1, c :: rest =>
    match tryMatchAt alts (c :: rest) with
    | some (k, r) => k ++ (": [REDACTED]".data ++ subScan alts fuel r)
    | none => c :: subScan alts fuel rest

/-- Python `re.sub(pattern, r'\1: [REDACTED]', s)` for one pattern. -/
def reSub (alts : List KeyAlt) (s : String) : String :=
  String.mk (subScan alts s.data.length s.data)

/-- Build a key alternative from lowercase literals. -/
def kalt (pre : String) (mid : Bool) (post : String) : KeyAlt :=
  ⟨pre.data, mid, post.data⟩

/-- The table `SecurityConfig.SENSITIVE_PATTERNS` (security.py lines 46–52), in order:
api-key-like, password-like, secret/token-like, auth-token/bearer-like,
private-key-like. -/
def SENSITIVE_PATTERNS : List (List KeyAlt) :=
  [ [kalt "api" true "key", kalt "apikey" false ""]
  , [kalt "password" false "", kalt "passwd" false "", kalt "pwd" false ""]
  , [kalt "secret" false "", kalt "token" false ""]
  , [kalt "auth" true "token", kalt "bearer" false ""]
  , [kalt "private" true "key", kalt "privkey" false ""] ]

/-- security.py `sanitize_sensitive_string` (lines 103–113): the five
substitutions applied in sequence. -/
def sanitize_sensitive_string (s : String) : String :=
  SENSITIVE_PATTERNS.foldl (fun acc p => reSub p acc) s

/-! ### sanitize_trace_data (security.py lines 85–101)

The Python function returns non-dict input unchanged; on a dict it copies
it and rewrites each value: nested dicts recurse, lists map
`sanitize_trace_data` over dict items only (all other items pass through
unchanged), strings are passed to `sanitize_sensitive_string`, all other
scalars pass through. -/

mutual

def sanitize_trace_data : JsonVal → JsonVal
  | .obj kvs => .obj (sanitizeEntries kvs)
  | v => v

def sanitizeEntries : List (String × JsonVal) → List (String × JsonVal)
  | [] => []
  | (k, v) :: rest => (k, sanitizeValue v) :: sanitizeEntries rest

def sanitizeValue : JsonVal → JsonVal
  | .obj kvs => .obj (sanitizeEntries kvs)
  | .arr xs => .arr (sanitizeItems xs)
  | .str s => .str (sanitize_sensitive_string s)
  | v => v

def sanitizeItems : List JsonVal → List JsonVal
  | [] => []
  | .obj kvs :: rest => .obj (sanitizeEntries kvs) :: sanitizeItems rest
  | v :: rest => v :: sanitizeItems rest

end

mutual

/-- The sanitizer as the specification's words describe it (spec §4.1 and
claim C6): mappings key-by-key with values recursed, sequences
element-by-element, every string leaf (string list elements included)
redacted, non-string scalars unchanged.  This definition follows the
spec, not the code; it exists only to be compared with the implementation
`sanitize_trace_data`. -/
def sanitizeSpec : JsonVal → JsonVal
  | .obj kvs => .obj (sanitizeSpecEntries kvs)
  | .arr xs => .arr (sanitizeSpecItems xs)
  | .str s => .str (sanitize_sensitive_string s)
  | v => v

def sanitizeSpecEntries : List (String × JsonVal) → List (String × JsonVal)
  | [] => []
  | (k, v) :: rest => (k, sanitizeSpec v) :: sanitizeSpecEntries rest

def sanitizeSpecItems : List JsonVal → List JsonVal
  | [] => []
  | v :: rest => sanitizeSpec v :: sanitizeSpecItems rest

end

mutual

/-- Every sequence anywhere in the value holds only mappings: the
structures on which the implementation's list handling and the spec's
agree. -/
def arraysHoldDicts : JsonVal → Bool
  | .arr xs => arraysHoldDictsItems xs
  | .obj kvs => arraysHoldDictsEntries kvs
  | _ => true

def arraysHoldDictsItems : List JsonVal → Bool
  | [] => true
  | .obj kvs :: rest => arraysHoldDictsEntries kvs && arraysHoldDictsItems rest
  | _ :: _ => false

def arraysHoldDictsEntries : List (String × JsonVal) → Bool
  | [] => true
  | (_, v) :: rest => arraysHoldDicts v && arraysHoldDictsEntries rest

end

/-- Holds when some position of `cs` starts a match of the given pattern. -/
def hasMatchIn (alts : List KeyAlt) : List Char → Bool
  | [] => false
  | c :: rest => (tryMatchAt alts (c :: rest)).isSome || hasMatchIn alts rest

/-- A string is clean when none of the five patterns matches anywhere in it. -/
def strClean (s : String) : Bool :=
  SENSITIVE_PATTERNS.all (fun p => !hasMatchIn p s.data)

mutual

/-- A value contains no residual matchable pattern: every string leaf
anywhere in the structure is clean. -/
def jsonClean : JsonVal → Bool
  | .str s => strClean s
  | .arr xs => jsonCleanItems xs
  | .obj kvs => jsonCleanEntries kvs
  | _ => true

def jsonCleanItems : List JsonVal → Bool
  | [] => true
  | v :: rest => jsonClean v && jsonCleanItems rest

def jsonCleanEntries : List (String × JsonVal) → Bool
  | [] => true
  | (_, v) :: rest => jsonClean v && jsonCleanEntries rest

end

/-! ## JSON serialization (`json.dumps(v, sort_keys=True)`)

Used by `_generate_cache_key` (ai_service.py lines 50–60).  Default
`json.dumps` settings: item separator `", "`, key separator `": "`,
`ensure_ascii=True` (non-ASCII characters escaped as `\uXXXX`), and with
`sort_keys=True` the items of every mapping are emitted in ascending key
order (Python compares strings by code points, as Lean's `String` order
does). -/

/-- Lowercase hex digit. -/
def hexDigit (n : Nat) : Char :=
  if n < 10 then Char.ofNat (48 + n) else Char.ofNat (87 + n)

/-- Four lowercase hex digits (big-endian) of `n < 0x10000`. -/
def hexDigits4 (n : Nat) : List Char :=
  [hexDigit (n / 4096 % 16), hexDigit (n / 256 % 16), hexDigit (n / 16 % 16), hexDigit (n % 16)]

/-- Python `json.dumps` escaping of one character (`ensure_ascii=True`): printable
ASCII other than `"` and `\` is literal, the common control characters get
short escapes, everything else becomes `\uXXXX` (surrogate pairs above the
BMP). -/
def jsonEscapeChar (c : Char) : List Char :=
  let n := c.toNat
  if c = '"' then ['\\', '"']
  else if c = '\\' then ['\\', '\\']
  else if c = '\n' then ['\\', 'n']
  else if c = '\t' then ['\\', 't']
  else if c = '\r' then ['\\', 'r']
  else if n = 8 then ['\\', 'b']
  else if n = 12 then ['\\', 'f']
  else if 0x20 ≤ n && n ≤ 0x7e then [c]
  else if n < 0x10000 then '\\' :: 'u' :: hexDigits4 n
  else
    let m := n - 0x10000
    ('\\' :: 'u' :: hexDigits4 (0xd800 + m / 0x400)) ++ ('\\' :: 'u' :: hexDigits4 (0xdc00 + m % 0x400))

/-- A JSON string literal for `s`. -/
def jsonQuote (s : String) : String :=
  String.mk ('"' :: (s.data.map jsonEscapeChar).flatten ++ ['"'])

/-- Join strings with a separator. -/
def joinSep (sep : String) : List String → String
  | [] => ""
  | [x] => x
  | x :: y :: xs => x ++ sep ++ joinSep sep (y :: xs)

/-- Key order used by `sort_keys=True`, on (key, emitted value) pairs. -/
def keyLe (a b : String × String) : Bool := a.1 ≤ b.1

mutual

/-- Python `json.dumps(v, sort_keys=True)`.  Mapping entries are emitted in
ascending key order; emitting each value first and then sorting the
(key, emitted-string) pairs is equivalent to Python's sort-then-emit
because the comparison looks only at the keys. -/
def pyJsonDumps : JsonVal → String
  | .null => "null"
  | .bool b => if b then "true" else "false"
  | .int n => toString n
  | .str s => jsonQuote s
  | .arr xs => "[" ++ joinSep ", " (dumpsItems xs) ++ "]"
  | .obj kvs =>
    let sorted := (dumpsEntries kvs).mergeSort keyLe
    "\x7b" ++ joinSep ", " (sorted.map (fun p => jsonQuote p.1 ++ ": " ++ p.2)) ++ "\x7d"

def dumpsItems : List JsonVal → List String
  | [] => []
  | v :: r => pyJsonDumps v :: dumpsItems r

def dumpsEntries : List (String × JsonVal) → List (String × String)
  | [] => []
  | (k, v) :: r => (k, pyJsonDumps v) :: dumpsEntries r

end

/-! ## SHA-256 (`hashlib.sha256(...).hexdigest()`)

A direct FIPS 180-4 implementation over `Nat` with explicit reduction
modulo `2^32`.  The input string is UTF-8 encoded first, as Python's
`str.encode()` does. -/

/-- UTF-8 bytes of one character. -/
def utf8Char (c : Char) : List Nat :=
  let n := c.toNat
  if n < 0x80 then [n]
  else if n < 0x800 then [0xc0 + n / 64, 0x80 + n % 64]
  else if n < 0x10000 then [0xe0 + n / 4096, 0x80 + n / 64 % 64, 0x80 + n % 64]
  else [0xf0 + n / 0x40000, 0x80 + n / 4096 % 64, 0x80 + n / 64 % 64, 0x80 + n % 64]

/-- Python `s.encode()`: UTF-8 bytes of a string. -/
def utf8Bytes (s : String) : List Nat :=
  (s.data.map utf8Char).flatten

/-- Reduce to a 32-bit word. -/
def w32 (n : Nat) : Nat := n % 4294967296

/-- Right rotation of a 32-bit word by `k`. -/
def rotr32 (k x : Nat) : Nat := w32 (x / 2 ^ k + x % 2 ^ k * 2 ^ (32 - k))

/-- 32-bit complement. -/
def not32 (x : Nat) : Nat := 4294967295 - x

def shaCh (x y z : Nat) : Nat := (x &&& y) ^^^ (not32 x &&& z)

def shaMaj (x y z : Nat) : Nat := (x &&& y) ^^^ (x &&& z) ^^^ (y &&& z)

def bsig0 (x : Nat) : Nat := rotr32 2 x ^^^ rotr32 13 x ^^^ rotr32 22 x

def bsig1 (x : Nat) : Nat := rotr32 6 x ^^^ rotr32 11 x ^^^ rotr32 25 x

def ssig0 (x : Nat) : Nat := rotr32 7 x ^^^ rotr32 18 x ^^^ x / 2 ^ 3

def ssig1 (x : Nat) : Nat := rotr32 17 x ^^^ rotr32 19 x ^^^ x / 2 ^ 10

/-- The SHA-256 round constants, in the FIPS 180-4 order, grouped by
rounds 0–7, 8–15, and so on. -/
def shaK : List Nat :=
  [0x428a2f98, 0x71374491, 0xb5c0fbcf, 0xe9b5dba5, 0x3956c25b, 0x59f111f1, 0x923f82a4, 0xab1c5ed5]
    ++ [0xd807aa98, 0x12835b01, 0x243185be, 0x550c7dc3, 0x72be5d74, 0x80deb1fe, 0x9bdc06a7, 0xc19bf174]
    ++ [0xe49b69c1, 0xefbe4786, 0x0fc19dc6, 0x240ca1cc, 0x2de92c6f, 0x4a7484aa, 0x5cb0a9dc, 0x76f988da]
    ++ [0x983e5152, 0xa831c66d, 0xb00327c8, 0xbf597fc7, 0xc6e00bf3, 0xd5a79147, 0x06ca6351, 0x14292967]
    ++ [0x27b70a85, 0x2e1b2138, 0x4d2c6dfc, 0x53380d13, 0x650a7354, 0x766a0abb, 0x81c2c92e, 0x92722c85]
    ++ [0xa2bfe8a1, 0xa81a664b, 0xc24b8b70, 0xc76c51a3, 0xd192e819, 0xd6990624, 0xf40e3585, 0x106aa070]
    ++ [0x19a4c116, 0x1e376c08, 0x2748774c, 0x34b0bcb5, 0x391c0cb3, 0x4ed8aa4a, 0x5b9cca4f, 0x682e6ff3]
    ++ [0x748f82ee, 0x78a5636f, 0x84c87814, 0x8cc70208, 0x90befffa, 0xa4506ceb, 0xbef9a3f7, 0xc67178f2]

/-- SHA-256 working state. -/
structure Sha8 where
  a : Nat
  b : Nat
  c : Nat
  d : Nat
  e : Nat
  f : Nat
  g : Nat
  h : Nat

/-- The SHA-256 initial hash value. -/
def shaH0 : Sha8 :=
  ⟨0x6a09e667, 0xbb67ae85, 0x3c6ef372, 0xa54ff53a, 0x510e527f, 0x9b05688c, 0x1f83d9ab, 0x5be0cd19⟩

/-- Message padding: append `0x80`, zeros, and the 64-bit bit length. -/
def shaPad (msg : List Nat) : List Nat :=
  let len := msg.length
  let zeros := (64 - (len + 9) % 64) % 64
  let bits := len * 8
  msg ++ 0x80 :: List.replicate zeros 0 ++
    [bits / 2 ^ 56 % 256, bits / 2 ^ 48 % 256, bits / 2 ^ 40 % 256, bits / 2 ^ 32 % 256,
     bits / 2 ^ 24 % 256, bits / 2 ^ 16 % 256, bits / 2 ^ 8 % 256, bits % 256]

/-- Big-endian 32-bit words from bytes. -/
def bytesToWords : List Nat → List Nat
  | b0 :: b1 :: b2 :: b3 :: rest => (b0 * 2 ^ 24 + b1 * 2 ^ 16 + b2 * 2 ^ 8 + b3) :: bytesToWords rest
  | _ => []

/-- One step of the message-schedule extension. -/
def schedStep (w : List Nat) : List Nat :=
  let i := w.length
  w ++ [w32 (ssig1 (w.getD (i - 2) 0) + w.getD (i - 7) 0 + ssig0 (w.getD (i - 15) 0) + w.getD (i - 16) 0)]

/-- Extend 16 words to the 64-word message schedule. -/
def shaSched (w : List Nat) : List Nat := schedStep^[48] w

/-- One compression round. -/
def shaRound (s : Sha8) (kw : Nat × Nat) : Sha8 :=
  let t1 := w32 (s.h + bsig1 s.e + shaCh s.e s.f s.g + kw.1 + kw.2)
  let t2 := w32 (bsig0 s.a + shaMaj s.a s.b s.c)
  ⟨w32 (t1 + t2), s.a, s.b, s.c, w32 (s.d + t1), s.e, s.f, s.g⟩

/-- Compress one 16-word block into the running state. -/
def shaBlock (s : Sha8) (block : List Nat) : Sha8 :=
  let t := (shaK.zip (shaSched block)).foldl shaRound s
  ⟨w32 (s.a + t.a), w32 (s.b + t.b), w32 (s.c + t.c), w32 (s.d + t.d),
   w32 (s.e + t.e), w32 (s.f + t.f), w32 (s.g + t.g), w32 (s.h + t.h)⟩

/-- Split a word list into 16-word blocks. -/
def wordBlocks (ws : List Nat) : List (List Nat) :=
  match ws with
  | [] => []
  | w :: rest => (w :: rest).take 16 :: wordBlocks ((w :: rest).drop 16)
termination_by ws.length
decreasing_by
  simp [List.length_drop]
  omega

/-- Eight lowercase hex digits of a 32-bit word. -/
def hexWord (n : Nat) : List Char :=
  hexDigits4 (n / 65536) ++ hexDigits4 (n % 65536)

/-- Python `hashlib.sha256(s.encode()).hexdigest()`. -/
def sha256hex (s : String) : String :=
  let final := (wordBlocks (bytesToWords (shaPad (utf8Bytes s)))).foldl shaBlock shaH0
  String.mk (hexWord final.a ++ hexWord final.b ++ hexWord final.c ++ hexWord final.d ++
    hexWord final.e ++ hexWord final.f ++ hexWord final.g ++ hexWord final.h)

/-! ## JSON reading (`json.loads`)

Used by `_parse_ai_response` (ai_service.py lines 130–173).  The reader
follows Python's strict decoder: JSON whitespace is space/tab/newline/CR,
strings reject raw control characters and unknown escapes, numbers follow
the JSON grammar, trailing data fails.  Two classes of input that Python
accepts are outside the modelled value space and are reported as
`unmod` instead of a value: float literals (JSON numbers with a fraction
or exponent) and lone UTF-16 surrogates from `\uXXXX` escapes.  No claim
quantifies over such replies. -/

/-- JSON whitespace. -/
def jsonWs (c : Char) : Bool := c = ' ' || c = '\t' || c = '\n' || c = '\r'

/-- Result of reading a piece of JSON: decode error, unmodelled-but-valid
input, or a parsed value with the remaining input. -/
inductive JRead (α : Type) where
  | fail : JRead α
  | unmod : JRead α
  | ok : α → List Char → JRead α

/-- Hex digit value. -/
def hexVal (c : Char) : Option Nat :=
  if '0' ≤ c && c ≤ '9' then some (c.toNat - 48)
  else if 'a' ≤ c && c ≤ 'f' then some (c.toNat - 87)
  else if 'A' ≤ c && c ≤ 'F' then some (c.toNat - 55)
  else none

/-- Four hex digits. -/
def readHex4 : List Char → Option (Nat × List Char)
  | c0 :: c1 :: c2 :: c3 :: rest => do
    let h0 ← hexVal c0
    let h1 ← hexVal c1
    let h2 ← hexVal c2
    let h3 ← hexVal c3
    pure (h0 * 4096 + h1 * 256 + h2 * 16 + h3, rest)
  | _ => none

/-- Read a JSON string body (after the opening quote). -/
def readJsonString : Nat → List Char → JRead String
  | 0, _ => .fail
  | _ + 1, [] => .fail
  | fuel + 1, c :: rest =>
    if c = '"' then .ok "" rest
    else if c = '\\' then
      match rest with
      | [] => .fail
      | e :: r2 =>
        let cont := fun (ch : Char) (r : List Char) =>
          match readJsonString fuel r with
          | .ok s r' => .ok (String.mk (ch :: s.data)) r'
          | x => x
        if e = '"' then cont '"' r2
        else if e = '\\' then cont '\\' r2
        else if e = '/' then cont '/' r2
        else if e = 'b' then cont '\x08' r2
        else if e = 'f' then cont '\x0c' r2
        else if e = 'n' then cont '\n' r2
        else if e = 'r' then cont '\r' r2
        else if e = 't' then cont '\t' r2
        else if e = 'u' then
          match readHex4 r2 with
          | none => .fail
          | some (n, r3) =>
            if 0xd800 ≤ n && n ≤ 0xdbff then
              match r3 with
              | '\\' :: 'u' :: r4 =>
                match readHex4 r4 with
                | some (m, r5) =>
                  if 0xdc00 ≤ m && m ≤ 0xdfff then
                    cont (Char.ofNat (0x10000 + (n - 0xd800) * 0x400 + (m - 0xdc00))) r5
                  else .unmod
                | none => .unmod
              | _ => .unmod
            else if 0xdc00 ≤ n && n ≤ 0xdfff then .unmod
            else cont (Char.ofNat n) r3
        else .fail
    else if c.toNat < 0x20 then .fail
    else
      match readJsonString fuel rest with
      | .ok s r' => .ok (String.mk (c :: s.data)) r'
      | x => x

/-- Digits to a natural number. -/
def digitsToNat (ds : List Char) : Nat :=
  ds.foldl (fun acc c => acc * 10 + (c.toNat - 48)) 0

/-- Decimal digit. -/
def isDigit (c : Char) : Bool := '0' ≤ c && c ≤ '9'

/-- Read a JSON number starting at `cs`; a fraction or exponent makes it a
float, which is valid JSON but outside the modelled value space. -/
def readJsonNumber (cs : List Char) : JRead JsonVal :=
  let core := fun (neg : Bool) (cs1 : List Char) =>
    match cs1 with
    | [] => JRead.fail
    | c :: r =>
      if c = '0' then
        match r with
        | d :: _ =>
          if d = '.' || d = 'e' || d = 'E' then .unmod
          else .ok (.int 0) r
        | [] => .ok (.int 0) r
      else if isDigit c then
        let ds := (c :: r).takeWhile isDigit
        let rest := (c :: r).dropWhile isDigit
        let v : Int := Int.ofNat (digitsToNat ds)
        match rest with
        | d :: _ =>
          if d = '.' || d = 'e' || d = 'E' then .unmod
          else .ok (.int (if neg then -v else v)) rest
        | [] => .ok (.int (if neg then -v else v)) rest
      else JRead.fail
  match cs with
  | '-' :: r => core true r
  | _ => core false cs

/-- Set a key in an insertion-ordered dict: replace in place or append
(Python dict semantics, last value wins, original position kept). -/
def dictSet (kvs : List (String × JsonVal)) (k : String) (v : JsonVal) : List (String × JsonVal) :=
  match kvs with
  | [] => [(k, v)]
  | (k', v') :: rest => if k' = k then (k, v) :: rest else (k', v') :: dictSet rest k v

/-- Literal match helper for `true` / `false` / `null`. -/
def dropLit : List Char → List Char → Option (List Char)
  | [], cs => some cs
  | l :: ls, c :: cs => if c = l then dropLit ls cs else none
  | _ :: _, [] => none

mutual

/-- Read one JSON value (leading whitespace allowed). -/
def readJsonValue : Nat → List Char → JRead JsonVal
  | 0, _ => .fail
  | fuel + 1, cs =>
    match cs.dropWhile jsonWs with
    | [] => .fail
    | c :: rest =>
      if c = '"' then
        match readJsonString (fuel + 1) rest with
        | .ok s r => .ok (.str s) r
        | .fail => .fail
        | .unmod => .unmod
      else if c = '\x7b' then readJsonMembers fuel rest [] true
      else if c = '[' then readJsonItems fuel rest [] true
      else if c = 't' then (dropLit ['r', 'u', 'e'] rest).elim .fail (.ok (.bool true))
      else if c = 'f' then (dropLit ['a', 'l', 's', 'e'] rest).elim .fail (.ok (.bool false))
      else if c = 'n' then (dropLit ['u', 'l', 'l'] rest).elim .fail (.ok .null)
      else readJsonNumber (c :: rest)

/-- Read object members (after `{` or after a comma).  `first` is true
before the first member, when `}` may close the empty object. -/
def readJsonMembers : Nat → List Char → List (String × JsonVal) → Bool → JRead JsonVal
  | 0, _, _, _ => .fail
  | fuel + 1, cs, acc, first =>
    match cs.dropWhile jsonWs with
    | [] => .fail
    | c :: rest =>
      if c = '\x7d' && first && acc.isEmpty then .ok (.obj []) rest
      else if c = '"' then
        match readJsonString (fuel + 1) rest with
        | .fail => .fail
        | .unmod => .unmod
        | .ok k r1 =>
          match r1.dropWhile jsonWs with
          | ':' :: r2 =>
            match readJsonValue fuel r2 with
            | .fail => .fail
            | .unmod => .unmod
            | .ok v r3 =>
              match r3.dropWhile jsonWs with
              | ',' :: r4 => readJsonMembers fuel r4 (dictSet acc k v) false
              | '\x7d' :: r4 => .ok (.obj (dictSet acc k v)) r4
              | _ => .fail
          | _ => .fail
      else .fail

/-- Read array items (after `[` or after a comma). -/
def readJsonItems : Nat → List Char → List JsonVal → Bool → JRead JsonVal
  | 0, _, _, _ => .fail
  | fuel + 1, cs, acc, first =>
    match cs.dropWhile jsonWs with
    | [] => .fail
    | c :: rest =>
      if c = ']' && first && acc.isEmpty then .ok (.arr []) rest
      else
        match readJsonValue fuel (c :: rest) with
        | .fail => .fail
        | .unmod => .unmod
        | .ok v r1 =>
          match r1.dropWhile jsonWs with
          | ',' :: r2 => readJsonItems fuel r2 (acc ++ [v]) false
          | ']' :: r2 => .ok (.arr (acc ++ [v])) r2
          | _ => .fail

end

/-- Top-level parse outcome of `json.loads`. -/
inductive JLoad where
  | fail : JLoad
  | unmod : JLoad
  | val : JsonVal → JLoad

/-- Python `json.loads(s)`: read one value, then only whitespace may remain.  The
fuel (every recursion level first consumes at least one character) is ample
for any input of this length; the fuel-exhausted branch is unreachable. -/
def jsonLoads (s : String) : JLoad :=
  match readJsonValue (s.data.length + 2) s.data with
  | .fail => .fail
  | .unmod => .unmod
  | .ok v rest => if (rest.dropWhile jsonWs).isEmpty then .val v else .fail

/-! ## Python `str`/`repr` of JSON-derived values

`parse_agent_log` uses `str(step_data)` as a content default, and
`_parse_ai_response` applies `str()` to the extracted fields.  The repr of
nested containers follows CPython (single-quoted strings, double quotes
when the text contains a single quote and no double quote); escaping
covers the backslash, the quote character and the common control
characters — CPython additionally hex-escapes other non-printable
characters, which no claim exercises. -/

/-- CPython `repr` of a string. -/
def pyStrRepr (s : String) : String :=
  let hasSq := s.data.contains '\''
  let hasDq := s.data.contains '"'
  let q : Char := if hasSq && !hasDq then '"' else '\''
  let esc := fun (c : Char) =>
    if c = '\\' then ['\\', '\\']
    else if c = q then ['\\', q]
    else if c = '\n' then ['\\', 'n']
    else if c = '\r' then ['\\', 'r']
    else if c = '\t' then ['\\', 't']
    else [c]
  String.mk (q :: (s.data.map esc).flatten ++ [q])

mutual

/-- Python `repr(v)` for a JSON-derived value. -/
def pyRepr : JsonVal → String
  | .null => "None"
  | .bool b => if b then "True" else "False"
  | .int n => toString n
  | .str s => pyStrRepr s
  | .arr xs => "[" ++ joinSep ", " (reprItems xs) ++ "]"
  | .obj kvs => "\x7b" ++ joinSep ", " (reprEntries kvs) ++ "\x7d"

def reprItems : List JsonVal → List String
  | [] => []
  | v :: r => pyRepr v :: reprItems r

def reprEntries : List (String × JsonVal) → List String
  | [] => []
  | (k, v) :: r => (pyStrRepr k ++ ": " ++ pyRepr v) :: reprEntries r

end

/-- Python `str(v)`: identical to `repr(v)` except on strings. -/
def pyStr : JsonVal → String
  | .str s => s
  | v => pyRepr v

/-! ## Python string helpers (`in`, `find`, slicing, `strip`) -/

/-- Does `needle` occur at the front of `hay`? -/
def listStartsWith : List Char → List Char → Bool
  | [], _ => true
  | _ :: _, [] => false
  | n :: ns, h :: hs => n = h && listStartsWith ns hs

/-- First index at which `needle` occurs in `hay`, counting from `i`. -/
def strFindAux (needle : List Char) : List Char → Nat → Option Nat
  | hay, i =>
    if listStartsWith needle hay then some i
    else
      match hay with
      | [] => none
      | _ :: rest => strFindAux needle rest (i + 1)

/-- Python `needle in hay` for strings. -/
def strContains (hay needle : String) : Bool :=
  (strFindAux needle.data hay.data 0).isSome

/-- Python `hay.find(needle, start)` (`-1` when absent). -/
def strFindFrom (hay needle : String) (start : Int) : Int :=
  let st := (max start 0).toNat
  match strFindAux needle.data (hay.data.drop st) 0 with
  | some i => Int.ofNat (st + i)
  | none => -1

/-- Python `hay.find(needle)`. -/
def strFind (hay needle : String) : Int := strFindFrom hay needle 0

/-- Python `s[a:b]` (negative indices count from the end, then clamp). -/
def pySlice (s : String) (a b : Int) : String :=
  let n : Int := s.data.length
  let a' := if a < 0 then a + n else a
  let b' := if b < 0 then b + n else b
  String.mk ((s.data.take (min b' n).toNat).drop (max a' 0).toNat)

/-- Python `s.strip()` (ASCII whitespace; no claim uses non-ASCII). -/
def pyStrip (s : String) : String :=
  String.mk (((s.data.dropWhile pySpace).reverse.dropWhile pySpace).reverse)

/-! ## Analysis cache and gate (ai_service.py)

Instants are integer epoch milliseconds; the TTL comparison
`datetime.now() - created_at > timedelta(hours=CACHE_TTL_HOURS)` becomes a
strict comparison with `CACHE_TTL_HOURS * 3600000` ms.  The module-level
`_analysis_cache` dict is threaded explicitly through each call.  Cache
entries are always stored with a `datetime` `created_at`, so the
`isinstance(created_at, datetime)` guard in `_get_cached_analysis` is
always taken.  The cached response dict always has six entries, so the
`if cached_response:` truthiness test in `analyze_error` is simply
presence. -/

/-- The three text fields extracted by `_parse_ai_response`. -/
structure ParsedFields where
  summary : String
  root_cause : String
  suggested_fix : String
deriving DecidableEq

/-- A full analysis response dict as built by `analyze_error` (lines
238–245).  `created_at` holds the instant whose `isoformat()` Python
stores. -/
structure AnalysisResp where
  summary : String
  root_cause : String
  suggested_fix : String
  model_used : String
  cached : Bool
  created_at : Int
deriving DecidableEq

/-- A `_analysis_cache` entry: `{"response": ..., "created_at": ...}`. -/
structure CacheEntry where
  response : AnalysisResp
  created_at : Int
deriving DecidableEq

/-- The module-level `_analysis_cache` mapping, in insertion order. -/
abbrev Cache := List (String × CacheEntry)

/-- ai_service.py line 16. -/
def CACHE_TTL_HOURS : Int := 24

/-- The TTL in milliseconds. -/
def ttlMs : Int := CACHE_TTL_HOURS * 3600000

/-- Dict lookup in `_analysis_cache` (keys are pairwise distinct: Python
dict). -/
def cacheGet (c : Cache) (k : String) : Option CacheEntry :=
  match c with
  | [] => none
  | (k', e) :: rest => if k' = k then some e else cacheGet rest k

/-- Dict store `_analysis_cache[k] = e` (replace in place or append). -/
def cacheInsert (c : Cache) (k : String) (e : CacheEntry) : Cache :=
  match c with
  | [] => [(k, e)]
  | (k', e') :: rest => if k' = k then (k, e) :: rest else (k', e') :: cacheInsert rest k e

/-- Dict delete `del _analysis_cache[k]`. -/
def cacheErase (c : Cache) (k : String) : Cache :=
  match c with
  | [] => []
  | (k', e') :: rest => if k' = k then rest else (k', e') :: cacheErase rest k

/-- The `AIAnalysisService` configuration read in `__init__` (lines 22–40);
`hasClient` models `self.client is not None`. -/
structure AIService where
  enabled : Bool
  hasClient : Bool
  model : String
  cache_enabled : Bool

/-- ai_service.py `is_enabled` (lines 42–44). -/
def AIService.is_enabled (svc : AIService) : Bool := svc.enabled && svc.hasClient

/-- The `[:500]` slice of the looked-up `"content"` value in
`_generate_cache_key`: the `""` default and `str` values slice as strings,
`list` values slice as lists, and any other present value raises
`TypeError` (modelled as `none`). -/
def contentSlice : Option JsonVal → Option JsonVal
  | none => some (.str "")
  | some (.str s) => some (.str (String.mk (s.data.take 500)))
  | some (.arr xs) => some (.arr (xs.take 500))
  | some _ => none

/-- ai_service.py `_generate_cache_key` (lines 50–60): a sorted-key JSON
serialization of the five-field `cache_data` dict, SHA-256 hashed. -/
def _generate_cache_key (error_message : String)
    (step_context trace_context : List (String × JsonVal)) : Option String :=
  match contentSlice (JsonVal.jget step_context "content") with
  | none => none
  | some content =>
    let cache_data : List (String × JsonVal) :=
      [("error", .str error_message),
       ("step_type", JsonVal.jgetD step_context "step_type" (.str "")),
       ("content", content),
       ("inputs", .str (pyJsonDumps (JsonVal.jgetD step_context "inputs" (.obj [])))),
       ("trace_id", JsonVal.jgetD trace_context "trace_id" (.str ""))]
    some (sha256hex (pyJsonDumps (.obj cache_data)))

/-- ai_service.py `_get_cached_analysis` (lines 62–81): the cached response
when caching is enabled, the key is present and the entry is fresh;
expired entries are deleted from the backing cache on this read (the
returned cache is the possibly mutated one). -/
def _get_cached_analysis (svc : AIService) (cache : Cache) (now : Int) (cache_key : String) :
    Option AnalysisResp × Cache :=
  if !svc.cache_enabled then (none, cache)
  else
    match cacheGet cache cache_key with
    | none => (none, cache)
    | some e =>
      if now - e.created_at > ttlMs then (none, cacheErase cache cache_key)
      else (some e.response, cache)

/-- ai_service.py `_store_cached_analysis` (lines 83–91). -/
def _store_cached_analysis (svc : AIService) (cache : Cache) (now : Int) (cache_key : String)
    (response : AnalysisResp) : Cache :=
  if !svc.cache_enabled then cache
  else cacheInsert cache cache_key ⟨response, now⟩

/-- The code-fence stripping at the top of `_parse_ai_response` (lines
134–142), with Python slice semantics when the closing fence is missing
(`find` returns `-1`). -/
def stripCodeFences (response_text : String) : String :=
  if strContains response_text "```json" then
    let start := strFind response_text "```json" + 7
    let stop := strFindFrom response_text "```" start
    pyStrip (pySlice response_text start stop)
  else if strContains response_text "```" then
    let start := strFind response_text "```" + 3
    let stop := strFindFrom response_text "```" start
    pyStrip (pySlice response_text start stop)
  else response_text

/-- The fallback returned when `json.loads` raises `JSONDecodeError`
(lines 158–166). -/
def parseFallbackDecode : ParsedFields :=
  ⟨"Failed to parse AI response", "The AI response could not be parsed",
   "Please try again or check the error manually"⟩

/-- The generic fallback (lines 167–173); `root_cause` is `str(e)` for the
exception raised during field validation or lookup. -/
def parseFallbackOther (msg : String) : ParsedFields :=
  ⟨"Error analyzing response", msg, "Please try again"⟩

/-- ai_service.py line 148. -/
def requiredFields : List String := ["summary", "root_cause", "suggested_fix"]

/-- Python `field not in v` / `v[field]` over the parsed JSON value, for
the non-dict cases of `_parse_ai_response` (membership on lists and
strings, `TypeError` otherwise); the exception messages follow CPython,
with the quotes around type names omitted.
Replies whose parse is valid JSON outside the modelled value space
(`JLoad.unmod`) are mapped to the decode fallback; no theorem quantifies
over them. -/
def _parse_ai_response (response_text : String) : ParsedFields :=
  match jsonLoads (stripCodeFences response_text) with
  | .fail => parseFallbackDecode
  | .unmod => parseFallbackDecode
  | .val v =>
    match v with
    | .obj kvs =>
      match requiredFields.find? (fun f => (JsonVal.jget kvs f).isNone) with
      | some f => parseFallbackOther ("Missing required field: " ++ f)
      | none =>
        ⟨pyStr (JsonVal.jgetD kvs "summary" .null),
         pyStr (JsonVal.jgetD kvs "root_cause" .null),
         pyStr (JsonVal.jgetD kvs "suggested_fix" .null)⟩
    | .arr xs =>
      match requiredFields.find?
          (fun f => !xs.any (fun x => match x with | .str s => s = f | _ => false)) with
      | some f => parseFallbackOther ("Missing required field: " ++ f)
      | none => parseFallbackOther "list indices must be integers or slices, not str"
    | .str s =>
      match requiredFields.find? (fun f => !strContains s f) with
      | some f => parseFallbackOther ("Missing required field: " ++ f)
      | none => parseFallbackOther "string indices must be integers"
    | .int _ => parseFallbackOther "argument of type int is not iterable"
    | .bool _ => parseFallbackOther "argument of type bool is not iterable"
    | .null => parseFallbackOther "argument of type NoneType is not iterable"

/-- Failure modes of `analyze_error`: the `ValueError` raised before the
`try` when the feature is disabled (line 195), a `TypeError` escaping from
`_generate_cache_key` (line 198, outside the `try`), and the `ValueError`
re-raised when the provider call itself fails (lines 252–254). -/
inductive AnalyzeErr where
  | featureDisabled : AnalyzeErr
  | keyTypeError : AnalyzeErr
  | providerError : AnalyzeErr
deriving DecidableEq

/-- The arguments of one `analyze_error` call. -/
structure AnalyzeArgs where
  error_message : String
  step_context : List (String × JsonVal)
  trace_context : List (String × JsonVal)
  force_refresh : Bool

/-- ai_service.py `analyze_error` (lines 175–254).  The external OpenAI
call is the out-of-scope collaborator; its outcome is an input: `none`
means the call raised (transport/auth failure), `some text` is the reply
text.  `_parse_ai_response` never raises, and the fallback response is
stored in the cache exactly like a parsed one (lines 235–250). -/
def analyze_error (svc : AIService) (cache : Cache) (now : Int) (reply : Option String)
    (args : AnalyzeArgs) : Except AnalyzeErr AnalysisResp × Cache :=
  if !svc.is_enabled then (.error .featureDisabled, cache)
  else
    match _generate_cache_key args.error_message args.step_context args.trace_context with
    | none => (.error .keyTypeError, cache)
    | some cache_key =>
      match (if args.force_refresh then (none, cache)
             else _get_cached_analysis svc cache now cache_key) with
      | (some cached_response, cache1) => (.ok { cached_response with cached := true }, cache1)
      | (none, cache1) =>
        match reply with
        | none => (.error .providerError, cache1)
        | some text =>
          let parsed := _parse_ai_response text
          let full : AnalysisResp :=
            { summary := parsed.summary, root_cause := parsed.root_cause,
              suggested_fix := parsed.suggested_fix, model_used := svc.model,
              cached := false, created_at := now }
          (.ok full, _store_cached_analysis svc cache1 now cache_key full)

/-! ## Normalizer (main.py)

`parse_timestamp` (lines 268–288) and `parse_agent_log` (lines 291–362).
Instants are integer epoch milliseconds.  Calendar arithmetic uses the
standard civil-from-days conversion; timestamps with a UTC offset are
normalized to UTC (CPython's `TypeError` on subtracting a naive from an
aware `datetime` inside the duration fallback is not modelled — no claim
below mixes aware and naive timestamps).  Sub-millisecond fractions are
truncated to milliseconds. -/

/-- Failure modes of `parse_agent_log`: the explicit
`ValueError("Invalid log format")` (line 306), an `AttributeError` from
`.get` on a non-dict step, a Pydantic `ValidationError` from
`AgentStep(...)`, and a `TypeError` from iterating a non-iterable `steps`
value. -/
inductive PyError where
  | invalidFormat : PyError
  | attributeError : PyError
  | validationError : PyError
  | typeError : PyError
deriving DecidableEq

/-- Days from the civil epoch 1970-01-01 (Howard Hinnant's algorithm,
written for truncating integer division). -/
def daysFromCivil (y m d : Int) : Int :=
  let y' := if m ≤ 2 then y - 1 else y
  let era := (if 0 ≤ y' then y' else y' - 399) / 400
  let yoe := y' - era * 400
  let mp := (m + 9) % 12
  let doy := (153 * mp + 2) / 5 + d - 1
  let doe := yoe * 365 + yoe / 4 - yoe / 100 + doy
  era * 146097 + doe - 719468

/-- Leap year. -/
def isLeap (y : Int) : Bool := y % 4 = 0 && (y % 100 ≠ 0 || y % 400 = 0)

/-- Days in a month. -/
def daysInMonth (y m : Int) : Int :=
  if m = 2 then (if isLeap y then 29 else 28)
  else if m = 4 || m = 6 || m = 9 || m = 11 then 30
  else 31

/-- Epoch milliseconds of a civil date-time with microseconds and a UTC
offset in minutes. -/
def civilToMs (y mo d h mi s : Int) (micro : Int) (offMinutes : Int) : Int :=
  ((daysFromCivil y mo d * 86400 + h * 3600 + mi * 60 + s) - offMinutes * 60) * 1000 + micro / 1000

/-- Read exactly `n` decimal digits. -/
def readDigits : Nat → List Char → Option (Nat × List Char)
  | 0, cs => some (0, cs)
  | n + 1, c :: cs =>
    if isDigit c then
      (readDigits n cs).map (fun p => ((c.toNat - 48) * 10 ^ n + p.1, p.2))
    else none
  | _ + 1, [] => none

/-- Read one or two decimal digits (as `strptime`'s `%m`/`%d`/`%H`/`%M`/`%S`
do). -/
def read1or2 (cs : List Char) : Option (Nat × List Char) :=
  match cs with
  | c :: d :: rest =>
    if isDigit c then
      if isDigit d then some ((c.toNat - 48) * 10 + (d.toNat - 48), d :: rest |>.tail)
      else some (c.toNat - 48, d :: rest)
    else none
  | [c] => if isDigit c then some (c.toNat - 48, []) else none
  | [] => none

/-- Expect one literal character. -/
def expectChar (ch : Char) : List Char → Option (List Char)
  | c :: cs => if c = ch then some cs else none
  | [] => none

/-- Read `YYYY-MM-DD sep HH:MM:SS` (field ranges as `strptime` validates
them, plus the day-of-month check `datetime(...)` performs). -/
def readCivilCore (sep : Char) (cs : List Char) : Option ((Int × Int × Int × Int × Int × Int) × List Char) := do
  let (y, r1) ← readDigits 4 cs
  let r2 ← expectChar '-' r1
  let (mo, r3) ← read1or2 r2
  let r4 ← expectChar '-' r3
  let (d, r5) ← read1or2 r4
  let r6 ← expectChar sep r5
  let (h, r7) ← read1or2 r6
  let r8 ← expectChar ':' r7
  let (mi, r9) ← read1or2 r8
  let r10 ← expectChar ':' r9
  let (s, r11) ← read1or2 r10
  if 1 ≤ mo && mo ≤ 12 && 1 ≤ d && h ≤ 23 && mi ≤ 59 && s ≤ 59 &&
      (Int.ofNat d) ≤ daysInMonth (Int.ofNat y) (Int.ofNat mo) then
    some ((Int.ofNat y, Int.ofNat mo, Int.ofNat d, Int.ofNat h, Int.ofNat mi, Int.ofNat s), r11)
  else none

/-- Read a `%f` fraction (1–6 digits), scaled to microseconds. -/
def readFraction (cs : List Char) : Option (Int × List Char) :=
  let ds := cs.takeWhile isDigit
  if ds.isEmpty || 6 < ds.length then none
  else some (Int.ofNat (digitsToNat ds * 10 ^ (6 - ds.length)), cs.dropWhile isDigit)

/-- Read a `%z` UTC offset: `Z`, `±HHMM` or `±HH:MM` (the common forms;
seconds in offsets are not modelled and no claim uses them). -/
def readUtcOffset (cs : List Char) : Option (Int × List Char) :=
  match cs with
  | 'Z' :: rest => some (0, rest)
  | c :: rest =>
    if c = '+' || c = '-' then do
      let (hh, r1) ← readDigits 2 rest
      let r2 := match r1 with
        | ':' :: r => r
        | r => r
      let (mm, r3) ← readDigits 2 r2
      if hh ≤ 23 && mm ≤ 59 then
        let m : Int := Int.ofNat (hh * 60 + mm)
        some (if c = '-' then -m else m, r3)
      else none
    else none
  | [] => none

/-- Python `datetime.strptime(value, "%Y-%m-%dT%H:%M:%S.%fZ")`. -/
def strptimeFmt1 (cs : List Char) : Option Int := do
  let (f, r) ← readCivilCore 'T' cs
  match r with
  | '.' :: r1 => do
    let (micro, r2) ← readFraction r1
    match r2 with
    | ['Z'] =>
      let (y, mo, d, h, mi, s) := f
      some (civilToMs y mo d h mi s micro 0)
    | _ => none
  | _ => none

/-- Python `datetime.strptime(value, "%Y-%m-%dT%H:%M:%S%z")`. -/
def strptimeFmt2 (cs : List Char) : Option Int := do
  let (f, r) ← readCivilCore 'T' cs
  let (off, r1) ← readUtcOffset r
  if r1.isEmpty then
    let (y, mo, d, h, mi, s) := f
    some (civilToMs y mo d h mi s 0 off)
  else none

/-- Python `datetime.strptime(value, "%Y-%m-%dT%H:%M:%S")`. -/
def strptimeFmt3 (cs : List Char) : Option Int := do
  let (f, r) ← readCivilCore 'T' cs
  if r.isEmpty then
    let (y, mo, d, h, mi, s) := f
    some (civilToMs y mo d h mi s 0 0)
  else none

/-- Python `datetime.strptime(value, "%Y-%m-%d %H:%M:%S")`. -/
def strptimeFmt4 (cs : List Char) : Option Int := do
  let (f, r) ← readCivilCore ' ' cs
  if r.isEmpty then
    let (y, mo, d, h, mi, s) := f
    some (civilToMs y mo d h mi s 0 0)
  else none

/-- Python `datetime.fromisoformat(value)` (lenient CPython ≥ 3.11 subset:
`YYYY-MM-DD`, optionally a `T`/space separator with `HH:MM`, optional
seconds, optional fraction, optional `±HH:MM`/`Z` offset).  Only reached
after all four `strptime` formats failed; no claim depends on the exact
accepted subset. -/
def pyFromIso (cs : List Char) : Option Int := do
  let (y, r1) ← readDigits 4 cs
  let r2 ← expectChar '-' r1
  let (mo, r3) ← readDigits 2 r2
  let r4 ← expectChar '-' r3
  let (d, r5) ← readDigits 2 r4
  if !(1 ≤ mo && mo ≤ 12 && 1 ≤ d && (Int.ofNat d) ≤ daysInMonth (Int.ofNat y) (Int.ofNat mo)) then
    none
  else
    match r5 with
    | [] => some (civilToMs (Int.ofNat y) (Int.ofNat mo) (Int.ofNat d) 0 0 0 0 0)
    | sep :: r6 =>
      if sep = 'T' || sep = ' ' then do
        let (h, r7) ← readDigits 2 r6
        let r8 ← expectChar ':' r7
        let (mi, r9) ← readDigits 2 r8
        let (s, micro, r10) ←
          match r9 with
          | ':' :: ra => do
            let (s, rb) ← readDigits 2 ra
            match rb with
            | '.' :: rc => do
              let (micro, rd) ← readFraction rc
              pure (s, micro, rd)
            | _ => pure (s, (0 : Int), rb)
          | _ => pure ((0 : Nat), (0 : Int), r9)
        let (off, r11) ←
          match r10 with
          | [] => pure ((0 : Int), ([] : List Char))
          | _ => readUtcOffset r10
        if h ≤ 23 && mi ≤ 59 && s ≤ 59 && r11.isEmpty then
          some (civilToMs (Int.ofNat y) (Int.ofNat mo) (Int.ofNat d) (Int.ofNat h) (Int.ofNat mi)
            (Int.ofNat s) micro off)
        else none
      else none

/-- Python `datetime.fromtimestamp(n)` succeeds for instants whose year is in
1…9999 (modelled with the UTC bounds). -/
def fromtimestampOK (n : Int) : Bool :=
  -62135596800 ≤ n && n ≤ 253402300799

/-- main.py `parse_timestamp` (lines 268–288): an `int`/`float` (including
`bool`, a Python `int` subtype) is a Unix timestamp in seconds; a string is
tried against the four `strptime` formats and then `fromisoformat`; on any
failure, and for every other type, the current time is returned.  (The
`isinstance(value, datetime)` branch is unreachable for JSON-derived
input.)  The function returns an instant for every input — it never
raises. -/
def parse_timestamp (now : Int) : JsonVal → Int
  | .int n => if fromtimestampOK n then n * 1000 else now
  | .bool b => (if b then 1 else 0) * 1000
  | .str s =>
    match strptimeFmt1 s.data with
    | some t => t
    | none =>
      match strptimeFmt2 s.data with
      | some t => t
      | none =>
        match strptimeFmt3 s.data with
        | some t => t
        | none =>
          match strptimeFmt4 s.data with
          | some t => t
          | none =>
            match pyFromIso s.data with
            | some t => t
            | none => now
  | _ => now

/-! ### parse_agent_log -/

/-- The canonical step (main.py `AgentStep`, lines 105–115).  The random
`id` field is omitted (no claim mentions it). -/
structure AgentStep where
  step_type : String
  timestamp : Int
  content : String
  metadata : Option (List (String × JsonVal))
  duration_ms : Option Int
  tokens_used : Option Int
  error : Option String
  inputs : List (String × JsonVal)
  outputs : List (String × JsonVal)

/-- Pydantic validation of a `str` field: strict type check of the
declared annotation.  (Pydantic's lax mode additionally coerces some
cross-type values; every theorem below stays inside the strict subset,
where all Pydantic versions agree, and every counterexample uses a value
every Pydantic version rejects.) -/
def vStr : JsonVal → Except PyError String
  | .str s => .ok s
  | _ => .error .validationError

/-- Pydantic validation of an `Optional[int]` field (strict; see `vStr`). -/
def vOptInt : JsonVal → Except PyError (Option Int)
  | .int n => .ok (some n)
  | .null => .ok none
  | _ => .error .validationError

/-- Pydantic validation of an `Optional[str]` field (strict; see `vStr`). -/
def vOptStr : JsonVal → Except PyError (Option String)
  | .str s => .ok (some s)
  | .null => .ok none
  | _ => .error .validationError

/-- Pydantic validation of an `Optional[Dict]` field (strict; see `vStr`). -/
def vOptDict : JsonVal → Except PyError (Option (List (String × JsonVal)))
  | .obj kvs => .ok (some kvs)
  | .null => .ok none
  | _ => .error .validationError

/-- The `inputs`/`outputs` wrapping (lines 335–336): a non-dict value
becomes `{"raw": value}`. -/
def wrapDict : JsonVal → List (String × JsonVal)
  | .obj kvs => kvs
  | v => [("raw", v)]

/-- One iteration of the step loop (main.py lines 308–338): synonym-key
extraction with `dict.get`, timestamp resolution, and `AgentStep(...)`
construction with Pydantic validation.  A non-dict step raises
`AttributeError` at the first `.get`. -/
def stepOfRaw (now : Int) (step_data : JsonVal) : Except PyError AgentStep :=
  match step_data with
  | .obj kvs => do
    let step_type ← vStr (JsonVal.jgetD kvs "type" (JsonVal.jgetD kvs "step_type" (.str "unknown")))
    let content ← vStr (JsonVal.jgetD kvs "content"
      (JsonVal.jgetD kvs "message" (.str (pyStr step_data))))
    let metadata ← vOptDict (JsonVal.jgetD kvs "metadata" (.obj []))
    let duration_ms ← vOptInt (JsonVal.jgetD kvs "duration_ms" (JsonVal.jgetD kvs "duration" .null))
    let tokens_used ← vOptInt (JsonVal.jgetD kvs "tokens_used" (JsonVal.jgetD kvs "tokens" .null))
    let error ← vOptStr (JsonVal.jgetD kvs "error" (JsonVal.jgetD kvs "error_message" .null))
    let inputs := wrapDict (JsonVal.jgetD kvs "inputs" (JsonVal.jgetD kvs "input" (.obj [])))
    let outputs := wrapDict (JsonVal.jgetD kvs "outputs" (JsonVal.jgetD kvs "output" (.obj [])))
    let ts_v := if (JsonVal.jgetD kvs "timestamp" .null).truthy then JsonVal.jgetD kvs "timestamp" .null
      else JsonVal.jgetD kvs "time" .null
    let timestamp := if ts_v.truthy then parse_timestamp now ts_v else now
    .ok ⟨step_type, timestamp, content, metadata, duration_ms, tokens_used, error, inputs, outputs⟩
  | _ => .error .attributeError

/-- Python iteration over the raw steps value (`for step_data in
raw_steps`): lists iterate elements, strings characters, dicts keys;
everything else raises `TypeError`. -/
def pyIter : JsonVal → Except PyError (List JsonVal)
  | .arr xs => .ok xs
  | .str s => .ok (s.data.map (fun c => .str (String.mk [c])))
  | .obj kvs => .ok (kvs.map (fun p => .str p.1))
  | _ => .error .typeError

/-- The step loop with its running totals (lines 308–348): steps in order,
`total_duration += duration if duration`, `total_tokens += tokens if
tokens`, `error_count += 1 if error` (Python truthiness: `None`, `0` and
`""` do not count). -/
def processSteps (now : Int) : List JsonVal → Except PyError (List AgentStep × Int × Int × Nat)
  | [] => .ok ([], 0, 0, 0)
  | sd :: rest => do
    let step ← stepOfRaw now sd
    let (steps, dur, tok, errs) ← processSteps now rest
    .ok (step :: steps,
      (match step.duration_ms with | some d => if d ≠ 0 then d + dur else dur | none => dur),
      (match step.tokens_used with | some t => if t ≠ 0 then t + tok else tok | none => tok),
      (match step.error with | some e => if e ≠ "" then errs + 1 else errs | none => errs))

/-- Raw step list determination (lines 298–306): a dict uses its `steps`
value when the key is present and otherwise is itself the single implicit
step; a list is the step list; anything else is the
`ValueError("Invalid log format")`. -/
def rawStepsOf : JsonVal → Except PyError JsonVal
  | .obj kvs => .ok (JsonVal.jgetD kvs "steps" (.arr [.obj kvs]))
  | .arr xs => .ok (.arr xs)
  | _ => .error .invalidFormat

/-- The canonical trace (main.py `AgentTrace`, lines 117–128) as
`parse_agent_log` fills it: steps, totals, error count, and the metadata
entries `parsed_at` / `step_count`.  Identifier, name, description,
`user_id` and `is_public` are set by the callers, not by the normalizer,
and no claim mentions them. -/
structure AgentTrace where
  steps : List AgentStep
  total_duration_ms : Int
  total_tokens : Int
  error_count : Nat
  parsed_at : Int
  step_count : Nat

/-- main.py `parse_agent_log` (lines 291–362). -/
def parse_agent_log (now : Int) (log_data : JsonVal) : Except PyError AgentTrace := do
  let raw ← rawStepsOf log_data
  let items ← pyIter raw
  let (steps, dur, tok, errs) ← processSteps now items
  let total_duration :=
    if 1 < steps.length ∧ dur = 0 then
      ((steps.getLast?.map (·.timestamp)).getD 0) - ((steps.head?.map (·.timestamp)).getD 0)
    else dur
  .ok ⟨steps, total_duration, tok, errs, now, steps.length⟩

/-! ## Lemmas about the sanitizer -/

theorem subScan_of_no_match (alts : List KeyAlt) (cs : List Char) :
    ∀ fuel, hasMatchIn alts cs = false → cs.length ≤ fuel → subScan alts fuel cs = cs := by
  induction cs with
  | nil => intro fuel _ _; cases fuel <;> rfl
  | cons c rest ih =>
    intro fuel h hf
    cases fuel with
    | zero => simp at hf
    | succ f =>
      have h1 : tryMatchAt alts (c :: rest) = none := by
        cases hm : tryMatchAt alts (c :: rest) with
        | none => rfl
        | some p => rw [hasMatchIn, hm] at h; simp at h
      have h2 : hasMatchIn alts rest = false := by
        rw [hasMatchIn, h1] at h
        simpa using h
      simp only [subScan, h1]
      rw [ih f h2 (by simpa using hf)]

theorem reSub_of_no_match (alts : List KeyAlt) (s : String) (h : hasMatchIn alts s.data = false) :
    reSub alts s = s := by
  simp only [reSub]
  rw [subScan_of_no_match alts s.data s.data.length h le_rfl]

theorem foldl_reSub_of_clean (s : String) :
    ∀ ps : List (List KeyAlt), (∀ p ∈ ps, hasMatchIn p s.data = false) →
      ps.foldl (fun acc p => reSub p acc) s = s := by
  intro ps
  induction ps with
  | nil => intro _; rfl
  | cons p rest ih =>
    intro h
    simp only [List.foldl_cons]
    rw [reSub_of_no_match p s (h p (by simp))]
    exact ih (fun q hq => h q (List.mem_cons_of_mem p hq))

theorem sanitize_sensitive_string_of_clean (s : String) (h : strClean s = true) :
    sanitize_sensitive_string s = s := by
  refine foldl_reSub_of_clean s SENSITIVE_PATTERNS ?_
  intro p hp
  have := List.all_eq_true.mp h p hp
  simpa using this

mutual

theorem sanitizeValue_of_clean (v : JsonVal) (h : jsonClean v = true) : sanitizeValue v = v := by
  cases v with
  | str s =>
    rw [sanitizeValue, sanitize_sensitive_string_of_clean s (by rw [jsonClean] at h; exact h)]
  | arr xs => rw [sanitizeValue, sanitizeItems_of_clean xs (by rw [jsonClean] at h; exact h)]
  | obj kvs => rw [sanitizeValue, sanitizeEntries_of_clean kvs (by rw [jsonClean] at h; exact h)]
  | null => rfl
  | bool b => rfl
  | int n => rfl

theorem sanitizeEntries_of_clean (kvs : List (String × JsonVal))
    (h : jsonCleanEntries kvs = true) : sanitizeEntries kvs = kvs := by
  match kvs with
  | [] => rfl
  | (k, v) :: rest =>
    rw [jsonCleanEntries, Bool.and_eq_true] at h
    rw [sanitizeEntries, sanitizeValue_of_clean v h.1, sanitizeEntries_of_clean rest h.2]

theorem sanitizeItems_of_clean (xs : List JsonVal) (h : jsonCleanItems xs = true) :
    sanitizeItems xs = xs := by
  match xs with
  | [] => rfl
  | v :: rest =>
    rw [jsonCleanItems, Bool.and_eq_true] at h
    have hrest := sanitizeItems_of_clean rest h.2
    cases v with
    | obj kvs =>
      have hv := sanitizeValue_of_clean (.obj kvs) h.1
      rw [sanitizeValue] at hv
      rw [sanitizeItems, hrest, hv]
    | null =>
      rw [sanitizeItems, hrest]
      exact fun _ h' => JsonVal.noConfusion h'
    | bool b =>
      rw [sanitizeItems, hrest]
      exact fun _ h' => JsonVal.noConfusion h'
    | int n =>
      rw [sanitizeItems, hrest]
      exact fun _ h' => JsonVal.noConfusion h'
    | str s =>
      rw [sanitizeItems, hrest]
      exact fun _ h' => JsonVal.noConfusion h'
    | arr ys =>
      rw [sanitizeItems, hrest]
      exact fun _ h' => JsonVal.noConfusion h'

end

/-! ## Claim C9 -/

/-- C9: sanitize is idempotent on already-clean output — for every input
`x` such that one sanitization pass leaves no residual matchable sensitive
pattern, `sanitize_trace_data (sanitize_trace_data x) = sanitize_trace_data
x`. -/
theorem C9_sanitize_idempotent (x : JsonVal)
    (h : jsonClean (sanitize_trace_data x) = true) :
    sanitize_trace_data (sanitize_trace_data x) = sanitize_trace_data x := by
  cases x with
  | obj kvs =>
    rw [sanitize_trace_data, jsonClean] at h
    rw [sanitize_trace_data, sanitize_trace_data, sanitizeEntries_of_clean _ h]
  | null => rfl
  | bool b => rfl
  | int n => rfl
  | str s => rfl
  | arr xs => rfl

/-- C9 witness: a concrete input whose single pass leaves no matchable
pattern. -/
theorem C9_witness :
    jsonClean (sanitize_trace_data (.obj [("msg", .str "all fine")])) = true ∧
    sanitize_trace_data (sanitize_trace_data (.obj [("msg", .str "all fine")])) =
      sanitize_trace_data (.obj [("msg", .str "all fine")]) :=
  ⟨by decide, C9_sanitize_idempotent _ (by decide)⟩

/-! ## Claim C6 -/

mutual

theorem sanitizeValue_eq_spec (v : JsonVal) (h : arraysHoldDicts v = true) :
    sanitizeValue v = sanitizeSpec v := by
  cases v with
  | obj kvs =>
    rw [sanitizeValue, sanitizeSpec,
      sanitizeEntries_eq_spec kvs (by rw [arraysHoldDicts] at h; exact h)]
  | arr xs =>
    rw [sanitizeValue, sanitizeSpec,
      sanitizeItems_eq_spec xs (by rw [arraysHoldDicts] at h; exact h)]
  | str s => rfl
  | null => rfl
  | bool b => rfl
  | int n => rfl

theorem sanitizeEntries_eq_spec (kvs : List (String × JsonVal))
    (h : arraysHoldDictsEntries kvs = true) : sanitizeEntries kvs = sanitizeSpecEntries kvs := by
  match kvs with
  | [] => rfl
  | (k, v) :: rest =>
    rw [arraysHoldDictsEntries, Bool.and_eq_true] at h
    rw [sanitizeEntries, sanitizeSpecEntries, sanitizeValue_eq_spec v h.1,
      sanitizeEntries_eq_spec rest h.2]

theorem sanitizeItems_eq_spec (xs : List JsonVal) (h : arraysHoldDictsItems xs = true) :
    sanitizeItems xs = sanitizeSpecItems xs := by
  match xs with
  | [] => rfl
  | v :: rest =>
    cases v with
    | obj kvs =>
      rw [arraysHoldDictsItems, Bool.and_eq_true] at h
      rw [sanitizeItems, sanitizeSpecItems, sanitizeSpec,
        sanitizeEntries_eq_spec kvs h.1, sanitizeItems_eq_spec rest h.2]
    | null => exact Bool.noConfusion h
    | bool b => exact Bool.noConfusion h
    | int n => exact Bool.noConfusion h
    | str s => exact Bool.noConfusion h
    | arr ys => exact Bool.noConfusion h

end

/-- C6 counterexample: a matchable sensitive string inside a list passes
through `sanitize_trace_data` unchanged (the list branch recurses only
into dict elements), even though `sanitize_sensitive_string` would redact
it — so not every string leaf is sanitized. -/
theorem C6_counterexample :
    sanitize_trace_data (.obj [("a", .arr [.str "password=hunter2"])]) =
      .obj [("a", .arr [.str "password=hunter2"])] ∧
    sanitize_sensitive_string "password=hunter2" = "password: [REDACTED]" :=
  ⟨rfl, rfl⟩

/-- C6 (amended): `sanitize_trace_data` rewrites mapping values key-by-key
(keys unchanged): nested mappings recurse, mapping list elements recurse,
string values are redacted, non-string scalars pass through — but a list
element that is not a mapping (including a string) passes through
unsanitized, and non-mapping input is returned unchanged.  The claimed
full traversal therefore coincides with the implementation exactly on
mapping payloads whose sequences hold only mappings. -/
theorem C6_amended (kvs : List (String × JsonVal)) (h : arraysHoldDictsEntries kvs = true) :
    sanitize_trace_data (.obj kvs) = sanitizeSpec (.obj kvs) ∧
    (∀ v : JsonVal, v.isObj = false → sanitize_trace_data v = v) := by
  constructor
  · rw [sanitize_trace_data, sanitizeSpec, sanitizeEntries_eq_spec kvs h]
  · intro v hv
    cases v with
    | obj kvs' => exact Bool.noConfusion hv
    | null => rfl
    | bool b => rfl
    | int n => rfl
    | str s => rfl
    | arr xs => rfl

/-- C6 witness: a nested mapping payload whose sequences hold only
mappings, with redactable strings at both depths. -/
theorem C6_witness :
    arraysHoldDictsEntries
      [("a", .str "password=hunter2"), ("b", .arr [.obj [("c", .str "token=x")]])] = true ∧
    sanitize_trace_data (.obj
      [("a", .str "password=hunter2"), ("b", .arr [.obj [("c", .str "token=x")]])]) =
      sanitizeSpec (.obj
        [("a", .str "password=hunter2"), ("b", .arr [.obj [("c", .str "token=x")]])]) :=
  ⟨by decide, (C6_amended _ (by decide)).1⟩

/-! ## Claim C8 -/

theorem bind_ne_invalid {α β : Type} (m : Except PyError α) (f : α → Except PyError β)
    (hm : m ≠ .error .invalidFormat) (hf : ∀ a, f a ≠ .error .invalidFormat) :
    (m >>= f) ≠ .error .invalidFormat := by
  cases m with
  | error e =>
    simp only [bind, Except.bind]
    intro h
    exact hm (by rw [Except.error.inj h])
  | ok a => simpa only [bind, Except.bind] using hf a

theorem vStr_ne_invalid (v : JsonVal) : vStr v ≠ .error .invalidFormat := by
  cases v <;> simp [vStr]

theorem vOptInt_ne_invalid (v : JsonVal) : vOptInt v ≠ .error .invalidFormat := by
  cases v <;> simp [vOptInt]

theorem vOptStr_ne_invalid (v : JsonVal) : vOptStr v ≠ .error .invalidFormat := by
  cases v <;> simp [vOptStr]

theorem vOptDict_ne_invalid (v : JsonVal) : vOptDict v ≠ .error .invalidFormat := by
  cases v <;> simp [vOptDict]

theorem stepOfRaw_ne_invalid (now : Int) (sd : JsonVal) :
    stepOfRaw now sd ≠ .error .invalidFormat := by
  cases sd with
  | obj kvs =>
    rw [stepOfRaw]
    apply bind_ne_invalid _ _ (vStr_ne_invalid _)
    intro st
    apply bind_ne_invalid _ _ (vStr_ne_invalid _)
    intro ct
    apply bind_ne_invalid _ _ (vOptDict_ne_invalid _)
    intro md
    apply bind_ne_invalid _ _ (vOptInt_ne_invalid _)
    intro du
    apply bind_ne_invalid _ _ (vOptInt_ne_invalid _)
    intro tk
    apply bind_ne_invalid _ _ (vOptStr_ne_invalid _)
    intro er
    simp
  | null => simp [stepOfRaw]
  | bool b => simp [stepOfRaw]
  | int n => simp [stepOfRaw]
  | str s => simp [stepOfRaw]
  | arr xs => simp [stepOfRaw]

theorem processSteps_ne_invalid (now : Int) (items : List JsonVal) :
    processSteps now items ≠ .error .invalidFormat := by
  induction items with
  | nil => simp [processSteps]
  | cons sd rest ih =>
    rw [processSteps]
    apply bind_ne_invalid _ _ (stepOfRaw_ne_invalid now sd)
    intro step
    apply bind_ne_invalid _ _ ih
    intro x
    cases x with
    | mk steps y => cases y with | mk dur z => cases z with | mk tok errs => simp

theorem pyIter_ne_invalid (v : JsonVal) : pyIter v ≠ .error .invalidFormat := by
  cases v <;> simp [pyIter]

/-- C8: `parse_agent_log` fails with the invalid-format error
(`ValueError("Invalid log format")`) exactly when the payload is neither a
mapping nor a sequence; a mapping payload's raw step list is its `steps`
value when that key is present and otherwise the whole mapping as a single
implicit step, and a sequence payload is the raw step list itself. -/
theorem C8_invalid_format (now : Int) (p : JsonVal) :
    (parse_agent_log now p = .error .invalidFormat ↔ p.isObj = false ∧ p.isArr = false) ∧
    (∀ kvs, p = .obj kvs →
      rawStepsOf p = .ok ((JsonVal.jget kvs "steps").getD (.arr [.obj kvs]))) ∧
    (∀ xs, p = .arr xs → rawStepsOf p = .ok (.arr xs)) := by
  refine ⟨⟨?_, ?_⟩, ?_, ?_⟩
  · intro h
    cases p with
    | obj kvs =>
      exfalso
      revert h
      rw [parse_agent_log]
      apply bind_ne_invalid _ _ (by simp [rawStepsOf])
      intro raw
      apply bind_ne_invalid _ _ (pyIter_ne_invalid raw)
      intro items
      apply bind_ne_invalid _ _ (processSteps_ne_invalid now items)
      intro x
      cases x with
      | mk steps y => cases y with | mk dur z => cases z with | mk tok errs => simp
    | arr xs =>
      exfalso
      revert h
      rw [parse_agent_log]
      apply bind_ne_invalid _ _ (by simp [rawStepsOf])
      intro raw
      apply bind_ne_invalid _ _ (pyIter_ne_invalid raw)
      intro items
      apply bind_ne_invalid _ _ (processSteps_ne_invalid now items)
      intro x
      cases x with
      | mk steps y => cases y with | mk dur z => cases z with | mk tok errs => simp
    | null => exact ⟨rfl, rfl⟩
    | bool b => exact ⟨rfl, rfl⟩
    | int n => exact ⟨rfl, rfl⟩
    | str s => exact ⟨rfl, rfl⟩
  · intro ⟨h1, h2⟩
    cases p with
    | obj kvs => exact Bool.noConfusion h1
    | arr xs => exact Bool.noConfusion h2
    | null => rfl
    | bool b => rfl
    | int n => rfl
    | str s => rfl
  · intro kvs hp
    subst hp
    rfl
  · intro xs hp
    subst hp
    rfl

/-- C8 witness: the three raw-step-list determinations at concrete
payloads. -/
theorem C8_witness :
    parse_agent_log 0 (.str "zzz") = .error .invalidFormat ∧
    rawStepsOf (.obj [("steps", .arr [])]) = .ok (.arr []) ∧
    rawStepsOf (.arr [.obj []]) = .ok (.arr [.obj []]) :=
  ⟨(C8_invalid_format 0 (.str "zzz")).1.mpr ⟨rfl, rfl⟩,
   (C8_invalid_format 0 (.obj [("steps", .arr [])])).2.1 _ rfl,
   (C8_invalid_format 0 (.arr [.obj []])).2.2 _ rfl⟩

/-! ## Claim C7 -/

/-- C7 counterexample: a mapping payload with one step whose `metadata`
field is the number `5` (a malformed leaf, and a value every Pydantic
version rejects for an `Optional[Dict]` field) makes `parse_agent_log`
abort with a validation error instead of applying a lenient default and
returning a trace. -/
theorem C7_counterexample :
    parse_agent_log 0 (.obj [("steps", .arr [.obj [("type", .str "thought"),
      ("content", .str "x"), ("metadata", .int 5)]])]) = .error .validationError := rfl

/-- C7 (amended): `parse_timestamp` returns an instant for every input and
falls back to the current time on total parse failure, and a malformed
*timestamp* leaf can never abort `parse_agent_log` (the timestamp value
below is arbitrary); but the lenience stops at the Step model's declared
field types — normalization returns a trace when the step fields pass that
validation (`str` kind/content, dict-or-null metadata, int-or-null
duration and tokens, str-or-null error), while a field value outside the
declared types aborts the ingestion with a validation error rather than
being defaulted. -/
theorem C7_amended (now : Int) (kind content : String) (tsv mdv durv tokv errv : JsonVal)
    (hmd : mdv = .null ∨ ∃ m, mdv = .obj m)
    (hdur : durv = .null ∨ ∃ n, durv = .int n)
    (htok : tokv = .null ∨ ∃ n, tokv = .int n)
    (herr : errv = .null ∨ ∃ s, errv = .str s) :
    (∃ tr, parse_agent_log now (.obj [("steps", .arr [.obj [("type", .str kind),
      ("content", .str content), ("metadata", mdv), ("timestamp", tsv),
      ("duration_ms", durv), ("tokens_used", tokv), ("error", errv)]])]) = .ok tr) ∧
    parse_timestamp now (.str "not a timestamp") = now := by
  refine ⟨?_, rfl⟩
  rcases hmd with rfl | ⟨m, rfl⟩ <;> rcases hdur with rfl | ⟨n, rfl⟩ <;>
    rcases htok with rfl | ⟨n2, rfl⟩ <;> rcases herr with rfl | ⟨s2, rfl⟩ <;>
    exact ⟨_, rfl⟩

/-- C7 witness: a concrete well-typed step. -/
theorem C7_witness :
    (∃ tr, parse_agent_log 7 (.obj [("steps", .arr [.obj [("type", .str "t"),
      ("content", .str "c"), ("metadata", .null), ("timestamp", .int 3),
      ("duration_ms", .null), ("tokens_used", .null), ("error", .null)]])]) = .ok tr) ∧
    parse_timestamp 7 (.str "not a timestamp") = 7 :=
  C7_amended 7 "t" "c" (.int 3) .null .null .null .null
    (Or.inl rfl) (Or.inl rfl) (Or.inl rfl) (Or.inl rfl)

/-! ## Claim C1 -/

/-- A synthetic batch step with explicit kind, content, timestamp (unix
seconds), duration and token count — the shape the aggregate claim
quantifies over. -/
structure StepSpec where
  kind : String
  content : String
  ts : Int
  dur : Int
  tok : Int

/-- The raw payload of one synthetic step. -/
def mkStep (s : StepSpec) : JsonVal :=
  .obj [("type", .str s.kind), ("content", .str s.content), ("timestamp", .int s.ts),
        ("duration_ms", .int s.dur), ("tokens_used", .int s.tok)]

/-- The resolved timestamp of a synthetic step: a zero timestamp is falsy
(Python `or`), so it falls through to the absent `time` key and the
current instant. -/
def specTs (now : Int) (s : StepSpec) : Int :=
  if s.ts ≠ 0 then parse_timestamp now (.int s.ts) else now

/-- The canonical step `parse_agent_log` builds from `mkStep s`. -/
def stepOfSpec (now : Int) (s : StepSpec) : AgentStep :=
  ⟨s.kind, specTs now s, s.content, some [], some s.dur, some s.tok, none, [], []⟩

/-- Sum of the explicit durations. -/
def sumDur (l : List StepSpec) : Int := (l.map (·.dur)).sum

/-- Sum of the explicit token counts. -/
def sumTok (l : List StepSpec) : Int := (l.map (·.tok)).sum

theorem stepOfRaw_mkStep (now : Int) (s : StepSpec) :
    stepOfRaw now (mkStep s) = .ok (stepOfSpec now s) := by
  by_cases h : s.ts = 0 <;>
    simp [stepOfRaw, mkStep, stepOfSpec, specTs, JsonVal.jgetD, JsonVal.jget,
      JsonVal.truthy, vStr, vOptInt, vOptStr, vOptDict, wrapDict, bind, Except.bind, h]

theorem processSteps_mkStep (now : Int) (l : List StepSpec) :
    processSteps now (l.map mkStep) =
      .ok (l.map (stepOfSpec now), sumDur l, sumTok l, 0) := by
  induction l with
  | nil => simp [processSteps, sumDur, sumTok]
  | cons s rest ih =>
    rw [List.map_cons, processSteps]
    rw [stepOfRaw_mkStep]
    simp only [bind, Except.bind, ih]
    simp only [stepOfSpec, sumDur, sumTok, List.map_cons, List.sum_cons]
    by_cases hd : s.dur = 0 <;> by_cases ht : s.tok = 0 <;> simp [hd, ht]

/-- C1 (amended): for a synthetic batch in which every step carries an
explicit duration and token count, `total_tokens` is always the sum of the
token counts, while `total_duration_ms` equals the duration sum exactly
when that sum is nonzero or at most one step exists; when the accumulated
duration total is zero (durations all zero — Python truthiness makes an
explicit `0` indistinguishable from an absent duration) and more than one
step exists, the timestamp-delta fallback is used instead. -/
theorem C1_aggregates (now : Int) (l : List StepSpec) :
    ∃ tr, parse_agent_log now (.arr (l.map mkStep)) = .ok tr ∧
      tr.total_tokens = sumTok l ∧
      tr.total_duration_ms =
        (if 1 < l.length ∧ sumDur l = 0 then
          ((l.getLast?.map (specTs now)).getD 0) - ((l.head?.map (specTs now)).getD 0)
        else sumDur l) ∧
      tr.steps.length = l.length := by
  have hp : parse_agent_log now (.arr (l.map mkStep)) = .ok
      ⟨l.map (stepOfSpec now),
       (if 1 < (l.map (stepOfSpec now)).length ∧ sumDur l = 0 then
          (((l.map (stepOfSpec now)).getLast?.map (·.timestamp)).getD 0) -
            (((l.map (stepOfSpec now)).head?.map (·.timestamp)).getD 0)
        else sumDur l),
       sumTok l, 0, now, (l.map (stepOfSpec now)).length⟩ := by
    rw [parse_agent_log]
    simp only [rawStepsOf, pyIter, bind, Except.bind, processSteps_mkStep]
  refine ⟨_, hp, rfl, ?_, by simp⟩
  show (if 1 < (l.map (stepOfSpec now)).length ∧ sumDur l = 0 then
      (((l.map (stepOfSpec now)).getLast?.map (·.timestamp)).getD 0) -
        (((l.map (stepOfSpec now)).head?.map (·.timestamp)).getD 0)
      else sumDur l) = _
  simp only [List.length_map, List.getLast?_map, List.head?_map, Option.map_map]
  rfl

/-- C1 witness: the aggregate theorem at a concrete two-step batch with
durations 120 and 5 and token counts 7 and 8. -/
theorem C1_witness :
    ∃ tr, parse_agent_log 0 (.arr [mkStep ⟨"action", "call api", 3, 120, 7⟩,
        mkStep ⟨"error", "boom", 4, 5, 8⟩]) = .ok tr ∧
      tr.total_duration_ms = 125 ∧ tr.total_tokens = 15 := by
  obtain ⟨tr, h1, h2, h3, _⟩ :=
    C1_aggregates 0 [⟨"action", "call api", 3, 120, 7⟩, ⟨"error", "boom", 4, 5, 8⟩]
  exact ⟨tr, h1, by rw [h3]; rfl, by rw [h2]; rfl⟩

/-- C1 counterexample: both steps carry an explicit duration (0 each, so
the sum of the explicit durations is 0) and explicit token counts, yet
the timestamp-delta fallback fires: the resulting `total_duration_ms` is
60000, not the claimed sum 0 — the fallback is used even though every
step carried an explicit duration. -/
theorem C1_counterexample :
    (parse_agent_log 0 (.arr [mkStep ⟨"a", "x", 100, 0, 1⟩, mkStep ⟨"b", "y", 160, 0, 2⟩])).map
        (fun t => (t.total_duration_ms, t.total_tokens)) = .ok (60000, 3) ∧
    (60000 : Int) ≠ (0 : Int) + 0 :=
  ⟨rfl, by decide⟩

/-! ## Claim C4 -/

theorem jget_perm : ∀ {s1 s2 : List (String × JsonVal)}, s1.Perm s2 →
    (s1.map Prod.fst).Nodup → ∀ k, JsonVal.jget s1 k = JsonVal.jget s2 k := by
  intro s1 s2 hp
  induction hp with
  | nil => intro _ _; rfl
  | cons x h ih =>
    intro hn k
    obtain ⟨kx, vx⟩ := x
    rw [JsonVal.jget, JsonVal.jget]
    by_cases hk : kx = k
    · simp [hk]
    · simp only [hk, if_false]
      refine ih ?_ k
      simp only [List.map_cons, List.nodup_cons] at hn
      exact hn.2
  | swap x y l =>
    intro hn k
    obtain ⟨kx, vx⟩ := x
    obtain ⟨ky, vy⟩ := y
    have hne : ky ≠ kx := by
      simp only [List.map_cons, List.nodup_cons, List.mem_cons] at hn
      exact fun hcon => hn.1 (Or.inl hcon)
    rw [JsonVal.jget, JsonVal.jget, JsonVal.jget, JsonVal.jget]
    by_cases h1 : ky = k <;> by_cases h2 : kx = k <;> simp [h1, h2]
    exact absurd (h1.trans h2.symm) hne
  | trans h1 h2 ih1 ih2 =>
    intro hn k
    exact (ih1 hn k).trans (ih2 (((h1.map Prod.fst).nodup_iff).mp hn) k)

theorem sorted_strict_mergeSort (l : List (String × String))
    (hn : (l.map Prod.fst).Nodup) :
    List.Sorted (fun a b : String × String => a.1 < b.1) (l.mergeSort keyLe) := by
  have hs : List.Pairwise (fun a b => keyLe a b = true) (l.mergeSort keyLe) :=
    List.sorted_mergeSort
      (fun a b c hab hbc => by
        simp only [keyLe, decide_eq_true_eq] at *
        exact le_trans hab hbc)
      (fun a b => by
        simp only [keyLe]
        rcases le_total a.1 b.1 with h | h <;> simp [h])
      l
  have hnm : ((l.mergeSort keyLe).map Prod.fst).Nodup :=
    (((List.mergeSort_perm l keyLe).symm.map Prod.fst).nodup_iff).mp hn
  have hne : List.Pairwise (fun a b : String × String => a.1 ≠ b.1) (l.mergeSort keyLe) :=
    List.pairwise_map.mp hnm
  exact (hs.and hne).imp (fun h =>
    lt_of_le_of_ne (by simpa [keyLe] using h.1) h.2)

theorem mergeSort_eq_of_perm_nodup (l1 l2 : List (String × String)) (hp : l1.Perm l2)
    (hn : (l1.map Prod.fst).Nodup) : l1.mergeSort keyLe = l2.mergeSort keyLe := by
  haveI : IsAntisymm (String × String) (fun a b => a.1 < b.1) :=
    ⟨fun a b h1 h2 => absurd (lt_trans h1 h2) (lt_irrefl _)⟩
  refine List.eq_of_perm_of_sorted (r := fun a b : String × String => a.1 < b.1)
    ?_ (sorted_strict_mergeSort l1 hn) (sorted_strict_mergeSort l2 ?_)
  · exact ((List.mergeSort_perm l1 keyLe).trans hp).trans (List.mergeSort_perm l2 keyLe).symm
  · exact ((hp.map Prod.fst).nodup_iff).mp hn

theorem dumpsEntries_eq_map (kvs : List (String × JsonVal)) :
    dumpsEntries kvs = kvs.map (fun p => (p.1, pyJsonDumps p.2)) := by
  induction kvs with
  | nil => rfl
  | cons p rest ih =>
    obtain ⟨k, v⟩ := p
    rw [dumpsEntries, ih]
    rfl

theorem pyJsonDumps_obj_perm (kvs1 kvs2 : List (String × JsonVal)) (hp : kvs1.Perm kvs2)
    (hn : (kvs1.map Prod.fst).Nodup) :
    pyJsonDumps (.obj kvs1) = pyJsonDumps (.obj kvs2) := by
  rw [pyJsonDumps, pyJsonDumps]
  have heq : (dumpsEntries kvs1).mergeSort keyLe = (dumpsEntries kvs2).mergeSort keyLe := by
    refine mergeSort_eq_of_perm_nodup _ _ ?_ ?_
    · rw [dumpsEntries_eq_map, dumpsEntries_eq_map]
      exact hp.map _
    · rw [dumpsEntries_eq_map, List.map_map]
      exact hn
  rw [heq]

/-- C4: the fingerprint `_generate_cache_key` is deterministic (it is a
function of its arguments), its value is unchanged under any reordering of
the entries of the step-context mapping, the trace-context mapping and the
step `inputs` mapping (the sorted-key serialization makes insertion order
irrelevant), and it depends only on the error text, the looked-up step
kind, the (sliced) step content, the serialized step inputs and the trace
identifier — all other entries of the two contexts are irrelevant. -/
theorem C4_fingerprint_stability (e : String)
    (s1 s2 t1 t2 i1 i2 rest tctx : List (String × JsonVal))
    (hs : s1.Perm s2) (hns : (s1.map Prod.fst).Nodup)
    (ht : t1.Perm t2) (hnt : (t1.map Prod.fst).Nodup)
    (hi : i1.Perm i2) (hni : (i1.map Prod.fst).Nodup) :
    _generate_cache_key e s1 t1 = _generate_cache_key e s2 t2 ∧
    _generate_cache_key e (("inputs", .obj i1) :: rest) tctx =
      _generate_cache_key e (("inputs", .obj i2) :: rest) tctx ∧
    (∀ sA sB tA tB : List (String × JsonVal),
      JsonVal.jget sA "content" = JsonVal.jget sB "content" →
      JsonVal.jget sA "step_type" = JsonVal.jget sB "step_type" →
      JsonVal.jget sA "inputs" = JsonVal.jget sB "inputs" →
      JsonVal.jget tA "trace_id" = JsonVal.jget tB "trace_id" →
      _generate_cache_key e sA tA = _generate_cache_key e sB tB) := by
  refine ⟨?_, ?_, ?_⟩
  · simp only [_generate_cache_key, JsonVal.jgetD, jget_perm hs hns, jget_perm ht hnt]
  · simp +decide [_generate_cache_key, JsonVal.jgetD, JsonVal.jget]
    rw [pyJsonDumps_obj_perm i1 i2 hi hni]
  · intro sA sB tA tB h1 h2 h3 h4
    simp only [_generate_cache_key, JsonVal.jgetD, h1, h2, h3, h4]

/-- C4 witness: reordering the step context, the trace context and the
inputs mapping leaves the fingerprint unchanged at a concrete instance. -/
theorem C4_witness :
    _generate_cache_key "err" [("step_type", .str "action"), ("content", .str "c")]
        [("trace_id", .str "t1"), ("previous_steps", .arr [])] =
      _generate_cache_key "err" [("content", .str "c"), ("step_type", .str "action")]
        [("previous_steps", .arr []), ("trace_id", .str "t1")] :=
  (C4_fingerprint_stability "err" _ _ _ _ [] [] [] []
    (List.Perm.swap _ _ _) (by decide) (List.Perm.swap _ _ _) (by decide)
    (List.Perm.refl []) (by decide)).1

/-! ## Claim C3 -/

theorem cacheGet_insert_self (c : Cache) (k : String) (e : CacheEntry) :
    cacheGet (cacheInsert c k e) k = some e := by
  induction c with
  | nil => simp [cacheInsert, cacheGet]
  | cons p rest ih =>
    obtain ⟨k', e'⟩ := p
    by_cases h : k' = k <;> simp [cacheInsert, cacheGet, h, ih]

theorem cacheInsert_length_of_miss (c : Cache) (k : String) (e : CacheEntry)
    (h : cacheGet c k = none) : (cacheInsert c k e).length = c.length + 1 := by
  induction c with
  | nil => rfl
  | cons p rest ih =>
    obtain ⟨k', e'⟩ := p
    rw [cacheGet] at h
    by_cases hk : k' = k
    · simp [hk] at h
    · simp only [hk, if_false] at h
      simp [cacheInsert, hk, ih h]

/-- C3: with caching enabled, `_get_cached_analysis` returns absent when
the key was never stored; when the stored entry's age strictly exceeds
the 24-hour TTL it returns absent and deletes the entry from the backing
map on that read; a fresh entry is returned with the map untouched; and a
store-then-get round trip returns the stored response at age 23h59m and
absent at age 24h01m. -/
theorem C3_cache_get_ttl (svc : AIService) (hen : svc.cache_enabled = true)
    (cache : Cache) (k : String) (now : Int) :
    (cacheGet cache k = none → _get_cached_analysis svc cache now k = (none, cache)) ∧
    (∀ e, cacheGet cache k = some e → now - e.created_at > ttlMs →
      _get_cached_analysis svc cache now k = (none, cacheErase cache k)) ∧
    (∀ e, cacheGet cache k = some e → now - e.created_at ≤ ttlMs →
      _get_cached_analysis svc cache now k = (some e.response, cache)) ∧
    (∀ r T, (_get_cached_analysis svc (_store_cached_analysis svc cache T k r)
        (T + 86340000) k).1 = some r) ∧
    (∀ r T, (_get_cached_analysis svc (_store_cached_analysis svc cache T k r)
        (T + 86460000) k).1 = none) := by
  refine ⟨?_, ?_, ?_, ?_, ?_⟩
  · intro h
    simp [_get_cached_analysis, hen, h]
  · intro e he hexp
    simp [_get_cached_analysis, hen, he, hexp]
  · intro e he hfr
    simp [_get_cached_analysis, hen, he,
      show ¬(now - e.created_at > ttlMs) from not_lt.mpr hfr]
  · intro r T
    simp +decide [_get_cached_analysis, _store_cached_analysis, hen, cacheGet_insert_self,
      ttlMs, CACHE_TTL_HOURS]
  · intro r T
    simp +decide [_get_cached_analysis, _store_cached_analysis, hen, cacheGet_insert_self,
      ttlMs, CACHE_TTL_HOURS]

/-- C3 witness: a concrete store-then-get round trip at both ages. -/
theorem C3_witness :
    (_get_cached_analysis ⟨true, true, "m", true⟩
      (_store_cached_analysis ⟨true, true, "m", true⟩ [] 0 "k"
        ⟨"s", "r", "f", "m", false, 0⟩) (0 + 86340000) "k").1 =
      some ⟨"s", "r", "f", "m", false, 0⟩ ∧
    (_get_cached_analysis ⟨true, true, "m", true⟩
      (_store_cached_analysis ⟨true, true, "m", true⟩ [] 0 "k"
        ⟨"s", "r", "f", "m", false, 0⟩) (0 + 86460000) "k").1 = none :=
  ⟨(C3_cache_get_ttl ⟨true, true, "m", true⟩ rfl [] "k" 0).2.2.2.1 ⟨"s", "r", "f", "m", false, 0⟩ 0,
   (C3_cache_get_ttl ⟨true, true, "m", true⟩ rfl [] "k" 0).2.2.2.2 ⟨"s", "r", "f", "m", false, 0⟩ 0⟩

/-! ## Claim C10 -/

/-- C10: with the cache-enabled flag false, every lookup returns absent
with the backing map untouched, every store leaves the backing map
unchanged, and every `analyze_error` call leaves the cache mapping exactly
as it was and never returns a result whose cache-served flag is true. -/
theorem C10_cache_disabled (svc : AIService) (hdis : svc.cache_enabled = false) :
    (∀ c now k, _get_cached_analysis svc c now k = (none, c)) ∧
    (∀ c now k r, _store_cached_analysis svc c now k r = c) ∧
    (∀ c now reply args, (analyze_error svc c now reply args).2 = c ∧
      ∀ r, (analyze_error svc c now reply args).1 = .ok r → r.cached = false) := by
  have hget : ∀ c now k, _get_cached_analysis svc c now k = (none, c) := by
    intro c now k
    simp [_get_cached_analysis, hdis]
  have hstore : ∀ c now k r, _store_cached_analysis svc c now k r = c := by
    intro c now k r
    simp [_store_cached_analysis, hdis]
  refine ⟨hget, hstore, ?_⟩
  intro c now reply args
  rw [analyze_error]
  by_cases he : svc.is_enabled
  · simp only [he, Bool.not_true, Bool.false_eq_true, if_false]
    cases hk : _generate_cache_key args.error_message args.step_context args.trace_context with
    | none => simp
    | some key =>
      try dsimp only
      by_cases hf : args.force_refresh <;>
        · simp only [hf, Bool.false_eq_true, if_true, if_false, hget]
          cases reply with
          | none => simp
          | some text => simp [hstore]
  · simp only [Bool.not_eq_true] at he
    simp only [he, Bool.not_false, if_true]
    simp

/-- C10 witness: concrete disabled-cache service. -/
theorem C10_witness :
    _get_cached_analysis ⟨true, true, "m", false⟩ [] 0 "k" = (none, []) ∧
    _store_cached_analysis ⟨true, true, "m", false⟩ [] 0 "k" ⟨"s", "r", "f", "m", false, 0⟩ = [] ∧
    (analyze_error ⟨true, true, "m", false⟩ [] 0 (some "not json")
      ⟨"e", [("content", .str "c")], [], false⟩).2 = [] :=
  ⟨(C10_cache_disabled _ rfl).1 [] 0 "k",
   (C10_cache_disabled _ rfl).2.1 [] 0 "k" _,
   ((C10_cache_disabled _ rfl).2.2 [] 0 (some "not json") _).1⟩

/-! ## Claim C5 -/

/-- C5: calling `analyze_error` twice with the same arguments and
`force_refresh` false — caching enabled, the fingerprint initially absent,
the second call within the TTL — makes the second call hit the cache: it
returns a result whose cache-served flag is true and whose summary,
root-cause and suggested-fix fields equal the first call's, whatever reply
(if any) the provider would have produced for the second call. -/
theorem C5_second_call_cached (svc : AIService)
    (hen : svc.is_enabled = true) (hce : svc.cache_enabled = true)
    (args : AnalyzeArgs) (hff : args.force_refresh = false)
    (c0 : Cache) (k : String)
    (hk : _generate_cache_key args.error_message args.step_context args.trace_context = some k)
    (hmiss : cacheGet c0 k = none)
    (now1 now2 : Int) (hfresh : now2 - now1 ≤ ttlMs) (text : String) (reply2 : Option String) :
    ∃ r1 c1 r2, analyze_error svc c0 now1 (some text) args = (.ok r1, c1) ∧
      analyze_error svc c1 now2 reply2 args = (.ok r2, c1) ∧
      r2.cached = true ∧ r2.summary = r1.summary ∧ r2.root_cause = r1.root_cause ∧
      r2.suggested_fix = r1.suggested_fix := by
  refine ⟨⟨(_parse_ai_response text).summary, (_parse_ai_response text).root_cause,
      (_parse_ai_response text).suggested_fix, svc.model, false, now1⟩,
    cacheInsert c0 k ⟨⟨(_parse_ai_response text).summary, (_parse_ai_response text).root_cause,
      (_parse_ai_response text).suggested_fix, svc.model, false, now1⟩, now1⟩,
    ⟨(_parse_ai_response text).summary, (_parse_ai_response text).root_cause,
      (_parse_ai_response text).suggested_fix, svc.model, true, now1⟩,
    ?_, ?_, rfl, rfl, rfl, rfl⟩
  · rw [analyze_error]
    simp only [hen, Bool.not_true, Bool.false_eq_true, if_false, hk]
    try dsimp only
    simp only [hff, Bool.false_eq_true, if_false]
    rw [show _get_cached_analysis svc c0 now1 k = (none, c0) from by
      simp [_get_cached_analysis, hce, hmiss]]
    try dsimp only
    rw [show _store_cached_analysis svc c0 now1 k
        ⟨(_parse_ai_response text).summary, (_parse_ai_response text).root_cause,
         (_parse_ai_response text).suggested_fix, svc.model, false, now1⟩ =
        cacheInsert c0 k ⟨⟨(_parse_ai_response text).summary, (_parse_ai_response text).root_cause,
         (_parse_ai_response text).suggested_fix, svc.model, false, now1⟩, now1⟩ from by
      simp [_store_cached_analysis, hce]]
  · rw [analyze_error]
    simp only [hen, Bool.not_true, Bool.false_eq_true, if_false, hk]
    try dsimp only
    simp only [hff, Bool.false_eq_true, if_false]
    rw [show _get_cached_analysis svc
        (cacheInsert c0 k ⟨⟨(_parse_ai_response text).summary, (_parse_ai_response text).root_cause,
          (_parse_ai_response text).suggested_fix, svc.model, false, now1⟩, now1⟩) now2 k =
        (some ⟨(_parse_ai_response text).summary, (_parse_ai_response text).root_cause,
          (_parse_ai_response text).suggested_fix, svc.model, false, now1⟩,
         cacheInsert c0 k ⟨⟨(_parse_ai_response text).summary, (_parse_ai_response text).root_cause,
          (_parse_ai_response text).suggested_fix, svc.model, false, now1⟩, now1⟩) from by
      simp [_get_cached_analysis, hce, cacheGet_insert_self, not_lt.mpr hfresh]]

/-- C5 witness: a concrete pair of calls, the second with no provider
reply at all. -/
theorem C5_witness :
    ∃ r1 c1 r2, analyze_error ⟨true, true, "gpt-4o-mini", true⟩ [] 0
        (some "\x7b\"summary\": \"s\", \"root_cause\": \"r\", \"suggested_fix\": \"f\"\x7d")
        ⟨"boom", [("step_type", .str "error"), ("content", .str "c"), ("inputs", .obj [])],
         [("trace_id", .str "t1")], false⟩ = (.ok r1, c1) ∧
      analyze_error ⟨true, true, "gpt-4o-mini", true⟩ c1 5 none
        ⟨"boom", [("step_type", .str "error"), ("content", .str "c"), ("inputs", .obj [])],
         [("trace_id", .str "t1")], false⟩ = (.ok r2, c1) ∧
      r2.cached = true ∧ r2.summary = r1.summary ∧ r2.root_cause = r1.root_cause ∧
      r2.suggested_fix = r1.suggested_fix :=
  C5_second_call_cached ⟨true, true, "gpt-4o-mini", true⟩ rfl rfl
    ⟨"boom", [("step_type", .str "error"), ("content", .str "c"), ("inputs", .obj [])],
     [("trace_id", .str "t1")], false⟩ rfl [] _ rfl rfl 0 5 (by decide)
    "\x7b\"summary\": \"s\", \"root_cause\": \"r\", \"suggested_fix\": \"f\"\x7d" none

/-! ## Claim C2 -/

/-- C2 counterexample: caching enabled, empty cache, the provider reply
`"not json"` fails to parse — the call returns the fallback result, but
the analysis cache is NOT unchanged: it now holds one entry (the fallback
was stored under the fingerprint). -/
theorem C2_counterexample :
    ((analyze_error ⟨true, true, "gpt-4o-mini", true⟩ [] 0 (some "not json")
      ⟨"boom", [("step_type", .str "error"), ("content", .str "c"), ("inputs", .obj [])],
       [("trace_id", .str "t")], false⟩).2).length = 1 ∧
    (analyze_error ⟨true, true, "gpt-4o-mini", true⟩ [] 0 (some "not json")
      ⟨"boom", [("step_type", .str "error"), ("content", .str "c"), ("inputs", .obj [])],
       [("trace_id", .str "t")], false⟩).1 =
      .ok ⟨"Failed to parse AI response", "The AI response could not be parsed",
           "Please try again or check the error manually", "gpt-4o-mini", false, 0⟩ :=
  ⟨rfl, rfl⟩

/-- C2 (amended): when the provider reply fails to parse, the call does
terminate with the fixed fallback result, but the fallback is stored in
the analysis cache under the fingerprint exactly like a parsed response —
the cache mapping gains that entry (so it is changed whenever the key was
absent).  The mapping is left unchanged only when the provider call itself
fails (or caching is disabled, claim C10). -/
theorem C2_amended (svc : AIService) (hen : svc.is_enabled = true) (hce : svc.cache_enabled = true)
    (args : AnalyzeArgs) (hff : args.force_refresh = false) (c : Cache) (k : String)
    (hk : _generate_cache_key args.error_message args.step_context args.trace_context = some k)
    (hmiss : cacheGet c k = none) (now : Int) (text : String)
    (hfail : jsonLoads (stripCodeFences text) = .fail) :
    analyze_error svc c now (some text) args =
      (.ok ⟨"Failed to parse AI response", "The AI response could not be parsed",
            "Please try again or check the error manually", svc.model, false, now⟩,
       cacheInsert c k ⟨⟨"Failed to parse AI response", "The AI response could not be parsed",
            "Please try again or check the error manually", svc.model, false, now⟩, now⟩) ∧
    cacheInsert c k ⟨⟨"Failed to parse AI response", "The AI response could not be parsed",
            "Please try again or check the error manually", svc.model, false, now⟩, now⟩ ≠ c ∧
    analyze_error svc c now none args = (.error .providerError, c) := by
  have hparse : _parse_ai_response text = parseFallbackDecode := by
    rw [_parse_ai_response, hfail]
  refine ⟨?_, ?_, ?_⟩
  · rw [analyze_error]
    simp only [hen, Bool.not_true, Bool.false_eq_true, if_false, hk]
    try dsimp only
    simp only [hff, Bool.false_eq_true, if_false]
    rw [show _get_cached_analysis svc c now k = (none, c) from by
      simp [_get_cached_analysis, hce, hmiss]]
    try dsimp only
    simp [hparse, parseFallbackDecode, _store_cached_analysis, hce]
  · intro heq
    have hl := cacheInsert_length_of_miss c k
      ⟨⟨"Failed to parse AI response", "The AI response could not be parsed",
        "Please try again or check the error manually", svc.model, false, now⟩, now⟩ hmiss
    rw [heq] at hl
    omega
  · rw [analyze_error]
    simp only [hen, Bool.not_true, Bool.false_eq_true, if_false, hk]
    try dsimp only
    simp only [hff, Bool.false_eq_true, if_false]
    rw [show _get_cached_analysis svc c now k = (none, c) from by
      simp [_get_cached_analysis, hce, hmiss]]

/-- C2 witness: a concrete unparseable reply changes the cache. -/
theorem C2_witness :
    (analyze_error ⟨true, true, "m", true⟩ [] 0 (some "nope")
      ⟨"e", [("content", .str "x")], [], false⟩).2 ≠ ([] : Cache) := by
  have h := C2_amended ⟨true, true, "m", true⟩ rfl rfl
    ⟨"e", [("content", .str "x")], [], false⟩ rfl [] _ rfl rfl 0 "nope" rfl
  rw [congrArg Prod.snd h.1]
  exact h.2.1

end AgentTrace
